import Mathlib

/-!
Verification of the SecurePasskey authentication-ceremony and
challenge-lifecycle subsystem.

The definitions below are a shallow embedding of the server code:
  - data model records mirror `shared/schema` / the `MemStorage` record shapes;
  - storage operations mirror `server/memory-storage.ts` (lists with
    first-match update semantics, id counters);
  - the Base64URL codec mirrors `server/webAuthn.ts`, with Node's standard
    base64 (`Buffer.toString('base64')` / `Buffer.from(_, 'base64')`)
    modelled as RFC 4648 base64 with padding, the decoder ignoring `=`;
  - HTTP handlers mirror the route bodies in `server/routes`
    (`/api/auth/register/complete`, `/api/auth/login/complete`,
    `/api/auth/qrcode`, `/api/auth/qrcode/verify`) and `server/auth.ts`
    (`/api/login`, `/api/mfa/verify`, `/api/mfa/setup`, `/api/mfa/enable`,
    `/api/mfa/disable`).

External collaborators (Node `crypto`, `otplib`, `Math.random`, scrypt
password comparison) are passed in as explicit function/value parameters.
Timestamps are Nat milliseconds; `Date` comparisons keep the source's
strictness.  The base64+JSON decoding of `clientDataJSON` on the wire is
modelled by an `Option ClientData` request field (`none` = undecodable,
which the source surfaces through its catch-all error response).
-/

namespace SecurePasskey

/-- `users` record (shared/schema + MemStorage.createUser shape). -/
structure User where
  id : Nat
  username : String
  email : String
  name : Option String
  password : Option String
  phone : Option String
  mfaEnabled : Bool
  mfaType : Option String
  mfaSecret : Option String
  registered : Bool
  verificationCode : Option String
  verificationExpiry : Option Nat
  lastLogin : Option Nat
  deriving DecidableEq, Repr

/-- `credentials` record. -/
structure Credential where
  id : Nat
  userId : Nat
  credentialId : String
  publicKey : String
  counter : Nat
  transports : List String
  createdAt : Nat
  deriving DecidableEq, Repr

/-- `challenges` record. -/
structure Challenge where
  id : Nat
  userId : Option Nat
  challenge : String
  type : String
  qrCode : Option String
  createdAt : Nat
  expiresAt : Nat
  deriving DecidableEq, Repr

/-- `mfaRecoveryCodes` record. -/
structure RecoveryCode where
  id : Nat
  userId : Nat
  code : String
  used : Bool
  createdAt : Nat
  usedAt : Option Nat
  deriving DecidableEq, Repr

/-- The `MemStorage` state: record lists plus the next-id counters. -/
structure Storage where
  users : List User
  credentials : List Credential
  challenges : List Challenge
  recoveryCodes : List RecoveryCode
  nextUserId : Nat
  nextCredentialId : Nat
  nextChallengeId : Nat
  nextRecoveryCodeId : Nat
  deriving DecidableEq, Repr

/-- `findIndex` + replace-in-place, the update pattern of every
`MemStorage.updateX` method (only the first matching element changes). -/
def updateFirst {α : Type} (p : α → Bool) (f : α → α) : List α → List α
  | [] => []
  | x :: xs => if p x then f x :: xs else x :: updateFirst p f xs

/-- `MemStorage.getUser`. -/
def getUser (s : Storage) (id : Nat) : Option User :=
  s.users.find? (fun u => u.id == id)

/-- `MemStorage.getUserByEmail`. -/
def getUserByEmail (s : Storage) (email : String) : Option User :=
  s.users.find? (fun u => u.email == email)

/-- `MemStorage.getUserByUsername`. -/
def getUserByUsername (s : Storage) (username : String) : Option User :=
  s.users.find? (fun u => u.username == username)

/-- `MemStorage.updateUser` (spread of the update over the found record),
returning the updated store and the updated user when found. -/
def updateUserRec (s : Storage) (id : Nat) (f : User → User) :
    Storage × Option User :=
  match s.users.find? (fun u => u.id == id) with
  | none => (s, none)
  | some u =>
      ({ s with users := updateFirst (fun v => v.id == id) f s.users }, some (f u))

/-- `MemStorage.getCredentialByCredentialId`. -/
def getCredentialByCredentialId (s : Storage) (credentialId : String) :
    Option Credential :=
  s.credentials.find? (fun c => c.credentialId == credentialId)

/-- `MemStorage.getCredentialsByUserId`. -/
def getCredentialsByUserId (s : Storage) (userId : Nat) : List Credential :=
  s.credentials.filter (fun c => c.userId == userId)

/-- `MemStorage.createCredential`. -/
def createCredential (now : Nat) (s : Storage) (userId : Nat)
    (credentialId publicKey : String) (counter : Nat)
    (transports : List String) : Storage × Credential :=
  let cred : Credential :=
    { id := s.nextCredentialId, userId := userId, credentialId := credentialId,
      publicKey := publicKey, counter := counter, transports := transports,
      createdAt := now }
  ({ s with credentials := s.credentials ++ [cred],
            nextCredentialId := s.nextCredentialId + 1 }, cred)

/-- `MemStorage.updateCredential` specialised to an update function. -/
def updateCredentialRec (s : Storage) (id : Nat) (f : Credential → Credential) :
    Storage :=
  { s with credentials := updateFirst (fun c => c.id == id) f s.credentials }

/-- `MemStorage.getChallenge`. -/
def getChallenge (s : Storage) (id : Nat) : Option Challenge :=
  s.challenges.find? (fun c => c.id == id)

/-- `MemStorage.getChallengesByUserId` (`challenge.userId === userId`; a
`null` userId never matches a numeric id). -/
def getChallengesByUserId (s : Storage) (userId : Nat) : List Challenge :=
  s.challenges.filter (fun c => c.userId == some userId)

/-- `MemStorage.createChallenge`. -/
def createChallenge (now : Nat) (s : Storage) (userId : Option Nat)
    (challenge ctype : String) (qrCode : Option String) (expiresAt : Nat) :
    Storage × Challenge :=
  let ch : Challenge :=
    { id := s.nextChallengeId, userId := userId, challenge := challenge,
      type := ctype, qrCode := qrCode, createdAt := now, expiresAt := expiresAt }
  ({ s with challenges := s.challenges ++ [ch],
            nextChallengeId := s.nextChallengeId + 1 }, ch)

/-- `MemStorage.deleteChallenge` (filters out every record with the id). -/
def deleteChallenge (s : Storage) (id : Nat) : Storage :=
  { s with challenges := s.challenges.filter (fun c => c.id != id) }

/-- `MemStorage.getRecoveryCode`. -/
def getRecoveryCode (s : Storage) (id : Nat) : Option RecoveryCode :=
  s.recoveryCodes.find? (fun c => c.id == id)

/-- `MemStorage.getRecoveryCodeByCode` (unused records only). -/
def getRecoveryCodeByCode (s : Storage) (code : String) : Option RecoveryCode :=
  s.recoveryCodes.find? (fun c => c.code == code && !c.used)

/-- `MemStorage.getRecoveryCodesByUserId`. -/
def getRecoveryCodesByUserId (s : Storage) (userId : Nat) : List RecoveryCode :=
  s.recoveryCodes.filter (fun c => c.userId == userId)

/-- `MemStorage.createRecoveryCode`. -/
def createRecoveryCode (now : Nat) (s : Storage) (userId : Nat)
    (code : String) (used : Bool) : Storage × RecoveryCode :=
  let rc : RecoveryCode :=
    { id := s.nextRecoveryCodeId, userId := userId, code := code,
      used := used, createdAt := now, usedAt := none }
  ({ s with recoveryCodes := s.recoveryCodes ++ [rc],
            nextRecoveryCodeId := s.nextRecoveryCodeId + 1 }, rc)

/-- `MemStorage.updateRecoveryCode` specialised to an update function. -/
def updateRecoveryCodeRec (s : Storage) (id : Nat)
    (f : RecoveryCode → RecoveryCode) : Storage :=
  { s with recoveryCodes := updateFirst (fun c => c.id == id) f s.recoveryCodes }

/-- `MemStorage.deleteAllRecoveryCodesByUserId`. -/
def deleteAllRecoveryCodesByUserId (s : Storage) (userId : Nat) : Storage :=
  { s with recoveryCodes := s.recoveryCodes.filter (fun c => c.userId != userId) }

/-! ## Base64 / Base64URL codec (server/webAuthn.ts)

Bytes are Nat values below 256.  Node's `Buffer.toString('base64')` and
`Buffer.from(_, 'base64')` are the external base64 primitive; they are
modelled by RFC 4648 base64 with `=` padding on encode, the decoder
dropping `=` (Node accepts unpadded input and ignores padding bytes). -/

/-- Split bytes into base64 sextets (final partial group padded with zero
bits, as in RFC 4648). -/
def sextetsOfBytes : List Nat → List Nat
  | [] => []
  | [a] => [a / 4, a % 4 * 16]
  | [a, b] => [a / 4, a % 4 * 16 + b / 16, b % 16 * 4]
  | a :: b :: c :: rest =>
      a / 4 :: (a % 4 * 16 + b / 16) :: (b % 16 * 4 + c / 64) :: c % 64 ::
        sextetsOfBytes rest

/-- Reassemble bytes from base64 sextets (inverse of `sextetsOfBytes`;
a trailing lone sextet carries no byte). -/
def bytesOfSextets : List Nat → List Nat
  | [] => []
  | [_] => []
  | [w, x] => [w * 4 + x / 16]
  | [w, x, y] => [w * 4 + x / 16, x % 16 * 16 + y / 4]
  | w :: x :: y :: z :: rest =>
      (w * 4 + x / 16) :: (x % 16 * 16 + y / 4) :: (y % 4 * 64 + z) ::
        bytesOfSextets rest

/-- Code point of the RFC 4648 base64 alphabet character for a sextet. -/
def base64CharCode (n : Nat) : Nat :=
  if n < 26 then 65 + n
  else if n < 52 then 97 + (n - 26)
  else if n < 62 then 48 + (n - 52)
  else if n = 62 then 43
  else 47

/-- Sextet to base64 alphabet character. -/
def sextetToChar (n : Nat) : Char := Char.ofNat (base64CharCode n)

/-- Base64 alphabet character back to its sextet; `none` for `=` and any
character outside the alphabet (the decoder ignores those). -/
def charToSextet (c : Char) : Option Nat :=
  let k := c.toNat
  if 65 ≤ k ∧ k ≤ 90 then some (k - 65)
  else if 97 ≤ k ∧ k ≤ 122 then some (26 + (k - 97))
  else if 48 ≤ k ∧ k ≤ 57 then some (52 + (k - 48))
  else if k = 43 then some 62
  else if k = 47 then some 63
  else none

/-- Node `buffer.toString('base64')`: standard base64 with `=` padding. -/
def base64EncodeChars (bytes : List Nat) : List Char :=
  (sextetsOfBytes bytes).map sextetToChar ++
    List.replicate ((3 - bytes.length % 3) % 3) '='

/-- Node `Buffer.from(chars, 'base64')`: map alphabet characters to
sextets (ignoring `=` and other non-alphabet characters) and reassemble. -/
def base64DecodeChars (chars : List Char) : List Nat :=
  bytesOfSextets (chars.filterMap charToSextet)

/-- The encode-side substitution of `bufferToBase64URL`. -/
def b64ToUrlChar (c : Char) : Char :=
  if c = '+' then '-' else if c = '/' then '_' else c

/-- The decode-side substitution of `base64URLToBuffer`. -/
def urlToB64Char (c : Char) : Char :=
  if c = '-' then '+' else if c = '_' then '/' else c

/-- `webAuthn.ts bufferToBase64URL`: base64, then `+`→`-`, `/`→`_`,
strip `=`. -/
def bufferToBase64URL (buffer : List Nat) : String :=
  (((base64EncodeChars buffer).map b64ToUrlChar).filter
    (fun c => c ≠ '=')).asString

/-- `webAuthn.ts base64URLToBuffer`: `-`→`+`, `_`→`/`, pad with `=` to a
multiple of 4, then base64-decode. -/
def base64URLToBuffer (s : String) : List Nat :=
  base64DecodeChars (s.toList.map urlToB64Char ++
    List.replicate ((4 - (s.toList.map urlToB64Char).length % 4) % 4) '=')

/-! ## WebAuthn ceremony helpers (server/webAuthn.ts and the challenge
comparison blocks of server/routes) -/

/-- Structured `clientDataJSON` content (`JSON.parse` of the decoded
buffer); the handlers read its `challenge` and `origin` fields. -/
structure ClientData where
  challenge : String
  origin : String
  deriving DecidableEq, Repr

/-- The challenge normalisation of the routes' mismatch fallback:
`replace(/=/g,'').replace(/\+/g,'-').replace(/\//g,'_')`. -/
def normalizeChallenge (s : String) : String :=
  ((s.toList.filter (fun c => c ≠ '=')).map b64ToUrlChar).asString

/-- The routes' two-step challenge comparison: exact equality, else
equality after normalisation. -/
def challengesMatch (clientChallenge serverChallenge : String) : Bool :=
  clientChallenge == serverChallenge ||
    normalizeChallenge clientChallenge == normalizeChallenge serverChallenge

/-- `webAuthn.ts parseAuthenticatorData` output. -/
structure ParsedAuthData where
  rpIdHash : List Nat
  flags : Nat
  counter : Nat
  deriving DecidableEq, Repr

/-- `parseAuthenticatorData`: 32-byte RP-ID hash, 1 flags byte, 4-byte
big-endian counter.  A buffer shorter than 37 bytes makes
`readUInt32BE` throw, surfaced as the route's catch-all error (`none`). -/
def parseAuthenticatorData (authData : List Nat) : Option ParsedAuthData :=
  if authData.length < 37 then none
  else
    some { rpIdHash := authData.take 32,
           flags := authData.getD 32 0,
           counter := authData.getD 33 0 * 16777216 + authData.getD 34 0 * 65536 +
             authData.getD 35 0 * 256 + authData.getD 36 0 }

/-- `webAuthn.ts verifyRpIdHash`: SHA-256 of the rpId (external `crypto`,
passed as `sha256`) compared with the first 32 bytes of the
authenticator data (`Buffer.equals`: contents and length). -/
def verifyRpIdHash (sha256 : String → List Nat) (authData : List Nat)
    (rpId : String) : Bool :=
  sha256 rpId == authData.take 32

/-- The active-challenge filter of the complete handlers:
`c.type === ctype && new Date(c.expiresAt) > new Date()`. -/
def activeChallengeFilter (ctype : String) (now : Nat) (c : Challenge) : Bool :=
  c.type == ctype && decide (now < c.expiresAt)

/-- The default candidate of the challenge-matching resolution:
`challenges.find(c => c.type === ctype && new Date(c.expiresAt) > new Date())`
over the list returned by `getChallengesByUserId`. -/
def defaultCandidate (s : Storage) (userId : Nat) (ctype : String)
    (now : Nat) : Option Challenge :=
  (getChallengesByUserId s userId).find? (activeChallengeFilter ctype now)

/-- The expected-challenge reselection block of both complete handlers:
if the client supplied a (truthy) expected challenge differing from the
default candidate's string, switch to a stored active challenge with
exactly that string when one exists. -/
def selectCandidate (challenges : List Challenge) (ctype : String) (now : Nat)
    (expectedChallenge : Option String) (challenge0 : Challenge) : Challenge :=
  match expectedChallenge with
  | none => challenge0
  | some ec =>
      if ec != "" && ec != challenge0.challenge then
        match challenges.find? (fun c =>
            c.type == ctype && c.challenge == ec && decide (now < c.expiresAt)) with
        | some m => m
        | none => challenge0
      else challenge0

/-! ## Ceremony handlers (server/routes) -/

/-- Result of `/api/auth/register/complete` (`user` is the value returned
by `storage.updateUser`). -/
inductive RegisterResult where
  | error (msg : String)
  | success (user : Option User)
  deriving DecidableEq, Repr

/-- Request body of `/api/auth/register/complete` after zod parsing.
`clientData` is the decoded+parsed `credential.response.clientDataJSON`
(`none` = undecodable). -/
structure RegisterCompleteRequest where
  email : String
  credRawId : String
  attestationObject : List Nat
  clientData : Option ClientData
  transports : List String
  expectedChallenge : Option String
  deriving DecidableEq, Repr

/-- `/api/auth/register/complete`.  `hashPub` is the external
`crypto.createHash('sha256').update(attestationObject).digest('base64')`
derivation of the stored "public key". -/
def registerComplete (hashPub : List Nat → String) (now : Nat) (s : Storage)
    (req : RegisterCompleteRequest) : RegisterResult × Storage :=
  match getUserByEmail s req.email with
  | none => (.error "User not found", s)
  | some user =>
    match (getChallengesByUserId s user.id).find?
        (activeChallengeFilter "registration" now) with
    | none => (.error "No active challenge found", s)
    | some challenge0 =>
      match req.clientData with
      | none => (.error "Invalid request", s)
      | some clientData =>
        if challengesMatch clientData.challenge
            (selectCandidate (getChallengesByUserId s user.id) "registration"
              now req.expectedChallenge challenge0).challenge then
          -- origin comparison is log-only in the source
          ((updateUserRec
              (createCredential now s user.id req.credRawId
                (hashPub req.attestationObject) 0 req.transports).1
              user.id (fun u => { u with registered := true })).2
            |> RegisterResult.success,
           deleteChallenge
             (updateUserRec
               (createCredential now s user.id req.credRawId
                 (hashPub req.attestationObject) 0 req.transports).1
               user.id (fun u => { u with registered := true })).1
             (selectCandidate (getChallengesByUserId s user.id) "registration"
               now req.expectedChallenge challenge0).id)
        else (.error "Challenge mismatch", s)

/-- Result of `/api/auth/login/complete`. -/
inductive LoginResult where
  | error (msg : String)
  | success (user : User)
  deriving DecidableEq, Repr

/-- Request body of `/api/auth/login/complete` after zod parsing. -/
structure LoginCompleteRequest where
  email : String
  credRawId : String
  clientData : Option ClientData
  authenticatorData : List Nat
  expectedChallenge : Option String
  deriving DecidableEq, Repr

/-- `/api/auth/login/complete`.  `sha256` is the external hash used by
`verifyRpIdHash`; `domain` is the request host without port.  The origin,
user-verified-flag and counter comparisons are log-only in the source. -/
def loginComplete (sha256 : String → List Nat) (domain : String) (now : Nat)
    (s : Storage) (req : LoginCompleteRequest) : LoginResult × Storage :=
  match getUserByEmail s req.email with
  | none => (.error "User not found", s)
  | some user =>
    match getCredentialByCredentialId s req.credRawId with
    | none => (.error "Credential not found", s)
    | some userCredential =>
      if userCredential.userId != user.id then
        (.error "Credential does not belong to user", s)
      else
        match (getChallengesByUserId s user.id).find?
            (activeChallengeFilter "authentication" now) with
        | none => (.error "No active challenge found", s)
        | some challenge0 =>
          match req.clientData with
          | none => (.error "Invalid request", s)
          | some clientData =>
            if challengesMatch clientData.challenge
                (selectCandidate (getChallengesByUserId s user.id)
                  "authentication" now req.expectedChallenge
                  challenge0).challenge then
              match parseAuthenticatorData req.authenticatorData with
              | none => (.error "Invalid request", s)
              | some parsedAuthData =>
                if verifyRpIdHash sha256 req.authenticatorData domain then
                  (.success user,
                    deleteChallenge
                      (updateCredentialRec s userCredential.id
                        (fun c => { c with counter := parsedAuthData.counter }))
                      (selectCandidate (getChallengesByUserId s user.id)
                        "authentication" now req.expectedChallenge
                        challenge0).id)
                else (.error "RP ID hash verification failed", s)
            else (.error "Challenge mismatch", s)

/-- Result of `/api/auth/qrcode` (start). -/
inductive QrStartResult where
  | error (msg : String)
  | success (id : Nat) (qrCode : String) (expiresAt : Nat)
  deriving DecidableEq, Repr

/-- `/api/auth/qrcode`: issue a qrcode-type challenge, anonymous when no
email is supplied (or the email is unknown).  `challengeVal` is the
externally generated random challenge string. -/
def qrcodeStart (challengeVal : String) (now : Nat) (s : Storage)
    (email : Option String) : QrStartResult × Storage :=
  let userId? : Option (Option Nat) :=
    match email with
    | none => some none
    | some e =>
        match getUserByEmail s e with
        | some user => if !user.registered then none else some (some user.id)
        | none => some none
  match userId? with
  | none => (.error "User not registered, please register first", s)
  | some userId =>
    let expiresAt := now + 300000
    let qrCodeData :=
      match userId with
      | some uid => challengeVal ++ ":" ++ toString uid
      | none => challengeVal ++ ":anonymous"
    let (s1, record) :=
      createChallenge now s userId challengeVal "qrcode" (some qrCodeData)
        expiresAt
    (.success record.id qrCodeData expiresAt, s1)

/-- Result of `/api/auth/qrcode/verify`; an error response can carry the
`requiresAuthentication: true` flag. -/
inductive QrVerifyResult where
  | error (msg : String) (requiresAuthentication : Bool)
  | success (user : User)
  deriving DecidableEq, Repr

/-- `/api/auth/qrcode/verify`. -/
def verifyQr (now : Nat) (s : Storage) (challengeId : Nat) :
    QrVerifyResult × Storage :=
  match getChallenge s challengeId with
  | none => (.error "Challenge not found" false, s)
  | some challenge =>
    if challenge.expiresAt < now then
      (.error "Challenge expired" false, deleteChallenge s challenge.id)
    else if challenge.type != "qrcode" then
      (.error "Invalid challenge type" false, s)
    else
      match challenge.userId with
      | some uid =>
          match getUser s uid with
          | none => (.error "User associated with QR code not found" false, s)
          | some user => (.success user, deleteChallenge s challenge.id)
      | none =>
          (.error "Anonymous QR code requires valid session to scan" true, s)

/-! ## MFA helpers (server/mfa, part_011) -/

/-- `generateEmailVerificationCode`:
`Math.floor(100000 + Math.random() * 900000)` with the external
`Math.random()` draw abstracted as `r < 900000`. -/
def generateEmailVerificationCode (r : Nat) : String :=
  toString (100000 + r)

/-- `getVerificationCodeExpiry(minutes)`: now plus the given minutes. -/
def getVerificationCodeExpiry (minutes now : Nat) : Nat :=
  now + minutes * 60000

/-- `isVerificationCodeExpired`: `new Date() > expiryDate`. -/
def isVerificationCodeExpired (now expiry : Nat) : Bool :=
  decide (expiry < now)

/-! ## Password login and MFA handlers (server/auth.ts)

`comparePw` stands for the external scrypt `comparePasswords`, and
`verifyOtp` for otplib's `authenticator.verify`.  A `success` result is
exactly the case in which the handler sets `req.session.userId`. -/

/-- Result of `/api/login`. -/
inductive LoginPwResult where
  | error (msg : String)
  | requiresMfa (userId : Nat) (mfaType : Option String)
      (verificationCode : Option String)
  | success (user : User)
  deriving DecidableEq, Repr

/-- `/api/login`: password login with the MFA gate. -/
def loginPassword (comparePw : String → String → Bool) (r : Nat) (now : Nat)
    (s : Storage) (username password : String) : LoginPwResult × Storage :=
  match getUserByUsername s username with
  | none => (.error "Invalid username or password", s)
  | some user =>
    match user.password with
    | none => (.error "This account requires passkey authentication", s)
    | some pw =>
      if !comparePw password pw then
        (.error "Invalid username or password", s)
      else if user.mfaEnabled then
        if user.mfaType == some "email" || user.mfaType == some "sms" then
          let verificationCode := generateEmailVerificationCode r
          let expiresAt := getVerificationCodeExpiry 10 now
          let (s1, _) := updateUserRec s user.id (fun u =>
            { u with verificationCode := some verificationCode,
                     verificationExpiry := some expiresAt })
          (.requiresMfa user.id user.mfaType (some verificationCode), s1)
        else
          (.requiresMfa user.id user.mfaType none, s)
      else
        let (s1, _) := updateUserRec s user.id (fun u =>
          { u with lastLogin := some now })
        (.success user, s1)

/-- The zod `mfaType` enum of `/api/mfa/verify`. -/
inductive MfaReqType where
  | email | sms | totp | recovery
  deriving DecidableEq, Repr

/-- Result of `/api/mfa/verify`. -/
inductive MfaVerifyResult where
  | error (msg : String)
  | success (user : User)
  deriving DecidableEq, Repr

/-- The tail of the `/api/mfa/verify` success path: set the session and
update `lastLogin`. -/
def mfaFinishLogin (now : Nat) (s : Storage) (user : User) :
    MfaVerifyResult × Storage :=
  let (s1, _) := updateUserRec s user.id (fun u => { u with lastLogin := some now })
  (.success user, s1)

/-- The email/sms code branch of `/api/mfa/verify`. -/
def mfaVerifyEmailSms (now : Nat) (s : Storage) (user : User) (code : String) :
    MfaVerifyResult × Storage :=
  if user.mfaType == some "email" || user.mfaType == some "sms" then
    match user.verificationCode, user.verificationExpiry with
    | some vc, some ve =>
        if isVerificationCodeExpired now ve then
          (.error "Verification code expired", s)
        else if vc == code then
          let (s1, _) := updateUserRec s user.id (fun u =>
            { u with verificationCode := none, verificationExpiry := none })
          mfaFinishLogin now s1 user
        else (.error "Invalid verification code", s)
    | _, _ => (.error "No verification code found or code expired", s)
  else (.error "Invalid MFA type", s)

/-- `/api/mfa/verify`. -/
def mfaVerify (verifyOtp : String → String → Bool) (now : Nat) (s : Storage)
    (userId : Nat) (code : String) (mfaType : MfaReqType) :
    MfaVerifyResult × Storage :=
  match getUser s userId with
  | none => (.error "User not found", s)
  | some user =>
    if !user.mfaEnabled then (.error "MFA not enabled for this user", s)
    else
      match mfaType with
      | .recovery =>
          match getRecoveryCodeByCode s code with
          | none => (.error "Invalid recovery code", s)
          | some recoveryCode =>
              if recoveryCode.userId != user.id || recoveryCode.used then
                (.error "Invalid recovery code", s)
              else
                let s1 := updateRecoveryCodeRec s recoveryCode.id (fun c =>
                  { c with used := true, usedAt := some now })
                mfaFinishLogin now s1 user
      | .totp =>
          if user.mfaType == some "totp" then
            match user.mfaSecret with
            | none => (.error "TOTP not set up properly", s)
            | some secret =>
                if verifyOtp code secret then mfaFinishLogin now s user
                else (.error "Invalid verification code", s)
          else (.error "Invalid MFA type", s)
      | .email => mfaVerifyEmailSms now s user code
      | .sms => mfaVerifyEmailSms now s user code

/-- The zod `type` enum of `/api/mfa/setup` and `/api/mfa/enable`. -/
inductive MfaSetupType where
  | totp | email | sms
  deriving DecidableEq, Repr

/-- The string the source stores in `user.mfaType` for a setup type. -/
def mfaSetupTypeString : MfaSetupType → String
  | .totp => "totp"
  | .email => "email"
  | .sms => "sms"

/-- Result of `/api/mfa/setup` (the success payload — secret, QR data URL,
recovery codes — is not modelled; only the state transition matters here). -/
inductive MfaSetupResult where
  | error (msg : String)
  | success
  deriving DecidableEq, Repr

/-- The recovery-code persistence loop shared by the three setup branches. -/
def createRecoveryCodes (now : Nat) (userId : Nat) (codes : List String)
    (s : Storage) : Storage :=
  codes.foldl (fun st code => (createRecoveryCode now st userId code false).1) s

/-- `/api/mfa/setup` behind `requireAuth` (the session user is looked up by
id).  `codes` is the externally generated `generateRecoveryCodes()` batch
and `r` the `Math.random` draw for the email/sms verification code. -/
def mfaSetup (now : Nat) (codes : List String) (r : Nat) (s : Storage)
    (userId : Nat) (ty : MfaSetupType) : MfaSetupResult × Storage :=
  match getUser s userId with
  | none => (.error "Not authenticated", s)
  | some user =>
    match ty with
    | .totp => (.success, createRecoveryCodes now user.id codes s)
    | .email =>
        if user.email == "" then (.error "User has no email address", s)
        else
          let verificationCode := generateEmailVerificationCode r
          let expiresAt := getVerificationCodeExpiry 10 now
          let (s1, _) := updateUserRec s user.id (fun u =>
            { u with verificationCode := some verificationCode,
                     verificationExpiry := some expiresAt })
          (.success, createRecoveryCodes now user.id codes s1)
    | .sms =>
        if user.phone.getD "" == "" then (.error "User has no phone number", s)
        else
          let verificationCode := generateEmailVerificationCode r
          let expiresAt := getVerificationCodeExpiry 10 now
          let (s1, _) := updateUserRec s user.id (fun u =>
            { u with verificationCode := some verificationCode,
                     verificationExpiry := some expiresAt })
          (.success, createRecoveryCodes now user.id codes s1)

/-- Result of `/api/mfa/enable` and `/api/mfa/disable` (the success body
returns the re-fetched user). -/
inductive MfaEnableResult where
  | error (msg : String)
  | success (user : Option User)
  deriving DecidableEq, Repr

/-- `/api/mfa/enable` behind `requireAuth`. -/
def mfaEnable (verifyOtp : String → String → Bool) (now : Nat) (s : Storage)
    (userId : Nat) (ty : MfaSetupType) (code : String)
    (secret : Option String) : MfaEnableResult × Storage :=
  match getUser s userId with
  | none => (.error "Not authenticated", s)
  | some user =>
    match ty with
    | .totp =>
        match secret with
        | none => (.error "Secret is required for TOTP setup", s)
        | some sec =>
            if verifyOtp code sec then
              let (s1, _) := updateUserRec s user.id (fun u =>
                { u with mfaEnabled := true, mfaType := some "totp",
                         mfaSecret := some sec })
              (.success (getUser s1 user.id), s1)
            else (.error "Invalid verification code", s)
    | other =>
        match user.verificationCode, user.verificationExpiry with
        | some vc, some ve =>
            if isVerificationCodeExpired now ve then
              (.error "Verification code expired", s)
            else if vc == code then
              let (s1, _) := updateUserRec s user.id (fun u =>
                { u with mfaEnabled := true,
                         mfaType := some (mfaSetupTypeString other),
                         verificationCode := none, verificationExpiry := none })
              (.success (getUser s1 user.id), s1)
            else (.error "Invalid verification code", s)
        | _, _ => (.error "No verification code found or code expired", s)

/-- `/api/mfa/disable` behind `requireAuth`. -/
def mfaDisable (comparePw : String → String → Bool) (s : Storage)
    (userId : Nat) (password : String) : MfaEnableResult × Storage :=
  match getUser s userId with
  | none => (.error "Not authenticated", s)
  | some user =>
    match user.password with
    | none => (.error "Cannot disable MFA: no password set", s)
    | some pw =>
      if comparePw password pw then
        let (s1, _) := updateUserRec s user.id (fun u =>
          { u with mfaEnabled := false, mfaType := none, mfaSecret := none })
        let s2 := deleteAllRecoveryCodesByUserId s1 user.id
        (.success (getUser s2 user.id), s2)
      else (.error "Invalid password", s)

/-! ## Definition from the spec's words, for the C1 refinement claim -/

/-- Modelled from the spec: "Pick the most-recently-created matching
challenge as the default candidate" — the maximal-`createdAt` element of
the active challenges of the ceremony type for the user. -/
def specMostRecentCandidate (s : Storage) (userId : Nat) (ctype : String)
    (now : Nat) : Option Challenge :=
  ((getChallengesByUserId s userId).filter (activeChallengeFilter ctype now)).foldl
    (fun acc c =>
      match acc with
      | none => some c
      | some a => if a.createdAt < c.createdAt then some c else some a)
    none

/-! ## Concrete fixtures used by the witnesses and counterexamples -/

/-- Empty store fixture. -/
def emptyStorage : Storage :=
  { users := [], credentials := [], challenges := [], recoveryCodes := [],
    nextUserId := 1, nextCredentialId := 1, nextChallengeId := 1,
    nextRecoveryCodeId := 1 }

/-- An expired anonymous qrcode challenge fixture. -/
def expiredQrChallenge : Challenge :=
  { id := 1, userId := none, challenge := "abc", type := "qrcode",
    qrCode := some "abc:anonymous", createdAt := 0, expiresAt := 10 }

/-- Store holding only `expiredQrChallenge`. -/
def expiredQrStorage : Storage :=
  { emptyStorage with challenges := [expiredQrChallenge], nextChallengeId := 2 }

/-- Fixture user (id 7), unregistered, no MFA. -/
def exUser7 : User :=
  { id := 7, username := "u", email := "u@e.com", name := none,
    password := none, phone := none, mfaEnabled := false, mfaType := none,
    mfaSecret := none, registered := false, verificationCode := none,
    verificationExpiry := none, lastLogin := none }

/-- Older unexpired registration challenge of user 7 (created at 0). -/
def regChallengeOld : Challenge :=
  { id := 1, userId := some 7, challenge := "A", type := "registration",
    qrCode := none, createdAt := 0, expiresAt := 100 }

/-- Newer unexpired registration challenge of user 7 (created at 50). -/
def regChallengeNew : Challenge :=
  { id := 2, userId := some 7, challenge := "B", type := "registration",
    qrCode := none, createdAt := 50, expiresAt := 100 }

/-- Store with user 7 and the two registration challenges, in creation
order (as MemStorage appends them). -/
def twoChallengeStorage : Storage :=
  { emptyStorage with
      users := [exUser7],
      challenges := [regChallengeOld, regChallengeNew],
      nextUserId := 8,
      nextChallengeId := 3 }

/-- Registered fixture user (id 1) owning a passkey credential. -/
def loginUser : User :=
  { id := 1, username := "alice", email := "a@b.com", name := none,
    password := none, phone := none, mfaEnabled := false, mfaType := none,
    mfaSecret := none, registered := true, verificationCode := none,
    verificationExpiry := none, lastLogin := none }

/-- Fixture credential of `loginUser` with stored signature counter 5. -/
def loginCredential : Credential :=
  { id := 1, userId := 1, credentialId := "cred1", publicKey := "pk",
    counter := 5, transports := [], createdAt := 0 }

/-- Unexpired authentication challenge of `loginUser`. -/
def loginChallenge : Challenge :=
  { id := 1, userId := some 1, challenge := "C", type := "authentication",
    qrCode := none, createdAt := 0, expiresAt := 100 }

/-- Store for the complete-login scenarios. -/
def loginStorage : Storage :=
  { emptyStorage with
      users := [loginUser],
      credentials := [loginCredential],
      challenges := [loginChallenge],
      nextUserId := 2,
      nextCredentialId := 2,
      nextChallengeId := 2 }

/-- Stand-in for the external SHA-256: every digest is 32 zero bytes. -/
def shaFix : String → List Nat := fun _ => List.replicate 32 0

/-- Big-endian 4-byte encoding of a counter value. -/
def be32 (n : Nat) : List Nat :=
  [n / 16777216 % 256, n / 65536 % 256, n / 256 % 256, n % 256]

/-- Authenticator data asserting counter `n`: `shaFix`-matching RP-ID
hash, flags byte 5 (user-present + user-verified), big-endian counter. -/
def authDataFor (n : Nat) : List Nat :=
  List.replicate 32 0 ++ [5] ++ be32 n

/-- Complete-login request over `loginStorage` asserting counter `n`. -/
def loginReq (n : Nat) : LoginCompleteRequest :=
  { email := "a@b.com", credRawId := "cred1",
    clientData := some { challenge := "C", origin := "o" },
    authenticatorData := authDataFor n, expectedChallenge := none }

/-- Fixture user (id 2) with a password and email MFA enabled. -/
def mfaEmailUser : User :=
  { id := 2, username := "bob", email := "b@c.com", name := none,
    password := some "hash", phone := none, mfaEnabled := true,
    mfaType := some "email", mfaSecret := none, registered := true,
    verificationCode := none, verificationExpiry := none, lastLogin := some 7 }

/-- Store holding `mfaEmailUser`. -/
def mfaEmailStorage : Storage :=
  { emptyStorage with users := [mfaEmailUser], nextUserId := 3 }

/-- Plain string equality standing in for the external scrypt
`comparePasswords`. -/
def eqComparePw : String → String → Bool := fun a b => a == b

/-- Unused recovery code of `mfaEmailUser`. -/
def recCode : RecoveryCode :=
  { id := 1, userId := 2, code := "AAAAA-BBBBB", used := false,
    createdAt := 0, usedAt := none }

/-- Store with `mfaEmailUser` and one unused recovery code. -/
def recStorage : Storage :=
  { emptyStorage with
      users := [mfaEmailUser],
      recoveryCodes := [recCode],
      nextUserId := 3,
      nextRecoveryCodeId := 2 }

/-! ## Helper lemmas about the storage list operations -/

theorem find?_updateFirst_same {α : Type} (p : α → Bool) (f : α → α) :
    ∀ (l : List α) (a : α), l.find? p = some a → p (f a) = true →
      (updateFirst p f l).find? p = some (f a) := by
  intro l
  induction l with
  | nil => intro a h _; simp [List.find?] at h
  | cons x xs ih =>
      intro a h hfa
      by_cases hx : p x = true
      · rw [List.find?_cons_of_pos _ hx] at h
        cases h
        simp [updateFirst, hx, List.find?_cons_of_pos _ hfa]
      · rw [List.find?_cons_of_neg _ hx] at h
        simp only [updateFirst, if_neg hx]
        rw [List.find?_cons_of_neg _ hx]
        exact ih a h hfa

theorem find?_updateFirst_diff {α : Type} (p q : α → Bool) (f : α → α) :
    ∀ (l : List α) (a : α), l.find? q = some a → q (f a) = true →
      p a = true → (∀ x ∈ l, p x = true → x = a) →
      (updateFirst p f l).find? q = some (f a) := by
  intro l
  induction l with
  | nil => intro a h _ _ _; simp [List.find?] at h
  | cons x xs ih =>
      intro a h hqfa hpa hUniq
      by_cases hqx : q x = true
      · rw [List.find?_cons_of_pos _ hqx] at h
        cases h
        simp [updateFirst, hpa, List.find?_cons_of_pos _ hqfa]
      · rw [List.find?_cons_of_neg _ hqx] at h
        have hpx : ¬ p x = true := by
          intro hpx
          have hx : x = a := hUniq x (List.mem_cons_self x xs) hpx
          rw [hx] at hqx
          exact hqx (by
            have := List.find?_some h
            exact this)
        simp only [updateFirst, if_neg hpx]
        rw [List.find?_cons_of_neg _ hqx]
        exact ih a h hqfa hpa (fun y hy => hUniq y (List.mem_cons_of_mem x hy))

theorem pairwise_key_eq {α : Type} (g : α → Nat) :
    ∀ (l : List α) (a b : α), l.Pairwise (fun x y => g x ≠ g y) →
      a ∈ l → b ∈ l → g a = g b → a = b := by
  intro l
  induction l with
  | nil => intro a b _ ha; cases ha
  | cons x xs ih =>
      intro a b hp ha hb hg
      rw [List.pairwise_cons] at hp
      rcases List.mem_cons.mp ha with ha' | ha' <;>
        rcases List.mem_cons.mp hb with hb' | hb'
      · rw [ha', hb']
      · exfalso; apply hp.1 b hb'; rw [← ha']; exact hg
      · exfalso; apply hp.1 a ha'; rw [← hb']; exact hg.symm
      · exact ih a b hp.2 ha' hb' hg

theorem find?_min_of_pairwise {α : Type} (R : α → α → Prop) (p : α → Bool) :
    ∀ (l : List α) (a b : α), l.Pairwise R → l.find? p = some a → b ∈ l →
      p b = true → a = b ∨ R a b := by
  intro l
  induction l with
  | nil => intro a b _ h; simp [List.find?] at h
  | cons x xs ih =>
      intro a b hp hf hb hpb
      rw [List.pairwise_cons] at hp
      by_cases hx : p x = true
      · rw [List.find?_cons_of_pos _ hx] at hf
        cases hf
        rcases List.mem_cons.mp hb with rfl | hb
        · exact Or.inl rfl
        · exact Or.inr (hp.1 b hb)
      · rw [List.find?_cons_of_neg _ hx] at hf
        rcases List.mem_cons.mp hb with rfl | hb
        · exact absurd hpb hx
        · exact ih a b hp.2 hf hb hpb

theorem mem_updateFirst_unique {α : Type} (g : α → Nat) (f : α → α) (k : Nat) :
    ∀ (l : List α) (rc : α), l.Pairwise (fun x y => g x ≠ g y) → rc ∈ l →
      g rc = k → ∀ y ∈ updateFirst (fun x => g x == k) f l,
        y = f rc ∨ (y ∈ l ∧ g y ≠ k) := by
  intro l
  induction l with
  | nil => intro rc _ hrc; cases hrc
  | cons x xs ih =>
      intro rc hp hrc hk y hy
      rw [List.pairwise_cons] at hp
      by_cases hx : g x = k
      · have hxr : x = rc := by
          rcases List.mem_cons.mp hrc with rfl | hm
          · rfl
          · exact absurd (hk ▸ hx) (hp.1 rc hm)
        simp only [updateFirst, hx, beq_self_eq_true, if_pos] at hy
        rcases List.mem_cons.mp hy with rfl | hy
        · exact Or.inl (by rw [hxr])
        · refine Or.inr ⟨List.mem_cons_of_mem x hy, ?_⟩
          intro hgk
          exact hp.1 y hy (hx.trans hgk.symm)
      · have hrcx : rc ∈ xs := by
          rcases List.mem_cons.mp hrc with rfl | hm
          · exact absurd hk hx
          · exact hm
        simp only [updateFirst, beq_iff_eq, if_neg hx] at hy
        rcases List.mem_cons.mp hy with rfl | hy
        · exact Or.inr ⟨List.mem_cons_self y xs, hx⟩
        · rcases ih rc hp.2 hrcx hk y hy with h | ⟨hmem, hne⟩
          · exact Or.inl h
          · exact Or.inr ⟨List.mem_cons_of_mem x hmem, hne⟩

theorem getUser_eq_of_users_eq (s1 s2 : Storage) (h : s1.users = s2.users)
    (id : Nat) : getUser s1 id = getUser s2 id := by
  unfold getUser
  rw [h]

theorem users_createRecoveryCodes (now uid : Nat) :
    ∀ (codes : List String) (s : Storage),
      (createRecoveryCodes now uid codes s).users = s.users := by
  intro codes
  induction codes with
  | nil => intro s; rfl
  | cons c cs ih =>
      intro s
      have hstep : createRecoveryCodes now uid (c :: cs) s =
          createRecoveryCodes now uid cs (createRecoveryCode now s uid c false).1 :=
        rfl
      rw [hstep, ih]
      rfl

/-! ## Claim C10 -/

/-- C10: verifying an unexpired qrcode challenge with no associated user
(anonymous QR, started with no email) fails with
`requiresAuthentication: true` and does not delete the challenge: the
stored state is unchanged and the record is still retrievable. -/
theorem c10_qr_anonymous_rejection
    (ch : String) (now1 now2 : Nat) (s : Storage)
    (hfresh : ∀ c ∈ s.challenges, c.id ≠ s.nextChallengeId)
    (hlive : now2 ≤ now1 + 300000) :
    (qrcodeStart ch now1 s none).1 =
      .success s.nextChallengeId (ch ++ ":anonymous") (now1 + 300000) ∧
    verifyQr now2 (qrcodeStart ch now1 s none).2 s.nextChallengeId =
      (.error "Anonymous QR code requires valid session to scan" true,
        (qrcodeStart ch now1 s none).2) ∧
    getChallenge (qrcodeStart ch now1 s none).2 s.nextChallengeId =
      some { id := s.nextChallengeId, userId := none, challenge := ch,
             type := "qrcode", qrCode := some (ch ++ ":anonymous"),
             createdAt := now1, expiresAt := now1 + 300000 } := by
  have hnotmem : s.challenges.find? (fun c => c.id == s.nextChallengeId) = none := by
    rw [List.find?_eq_none]
    intro x hx
    simpa using hfresh x hx
  have hget : getChallenge (qrcodeStart ch now1 s none).2 s.nextChallengeId =
      some { id := s.nextChallengeId, userId := none, challenge := ch,
             type := "qrcode", qrCode := some (ch ++ ":anonymous"),
             createdAt := now1, expiresAt := now1 + 300000 } := by
    show (s.challenges ++
      [({ id := s.nextChallengeId, userId := none, challenge := ch,
          type := "qrcode", qrCode := some (ch ++ ":anonymous"),
          createdAt := now1, expiresAt := now1 + 300000 } : Challenge)]).find?
        (fun c => c.id == s.nextChallengeId) = _
    rw [List.find?_append, hnotmem, Option.none_or,
      List.find?_cons_of_pos _ (by simp)]
  refine ⟨rfl, ?_, hget⟩
  show verifyQr now2 (qrcodeStart ch now1 s none).2 s.nextChallengeId = _
  rw [verifyQr, hget]
  simp only [if_neg (by omega : ¬ (now1 + 300000 < now2))]
  rfl

/-- Witness for C10 at a concrete anonymous QR flow. -/
theorem c10_qr_anonymous_rejection_witness :
    (qrcodeStart "abc" 0
        { users := [], credentials := [], challenges := [], recoveryCodes := [],
          nextUserId := 1, nextCredentialId := 1, nextChallengeId := 1,
          nextRecoveryCodeId := 1 } none).1 = .success 1 "abc:anonymous" 300000 ∧
    (verifyQr 100 (qrcodeStart "abc" 0
        { users := [], credentials := [], challenges := [], recoveryCodes := [],
          nextUserId := 1, nextCredentialId := 1, nextChallengeId := 1,
          nextRecoveryCodeId := 1 } none).2 1).1 =
      .error "Anonymous QR code requires valid session to scan" true := by
  have h := c10_qr_anonymous_rejection "abc" 0 100
    { users := [], credentials := [], challenges := [], recoveryCodes := [],
      nextUserId := 1, nextCredentialId := 1, nextChallengeId := 1,
      nextRecoveryCodeId := 1 } (by decide) (by omega)
  exact ⟨h.1, by rw [h.2.1]⟩

/-! ## Claim C2 -/

theorem registerComplete_error_state (hashPub : List Nat → String) (now : Nat)
    (s : Storage) (req : RegisterCompleteRequest) (m : String) (s' : Storage)
    (h : registerComplete hashPub now s req = (.error m, s')) : s' = s := by
  unfold registerComplete at h
  repeat' (first | split at h | simp_all)

theorem loginComplete_error_state (sha256 : String → List Nat)
    (domain : String) (now : Nat) (s : Storage) (req : LoginCompleteRequest)
    (m : String) (s' : Storage)
    (h : loginComplete sha256 domain now s req = (.error m, s')) : s' = s := by
  unfold loginComplete at h
  repeat' (first | split at h | simp_all)

theorem mfaVerify_error_state (verifyOtp : String → String → Bool) (now : Nat)
    (s : Storage) (userId : Nat) (code : String) (ty : MfaReqType)
    (m : String) (s' : Storage)
    (h : mfaVerify verifyOtp now s userId code ty = (.error m, s')) : s' = s := by
  unfold mfaVerify mfaVerifyEmailSms mfaFinishLogin at h
  repeat' (first | split at h | simp_all)

theorem verifyQr_error_state (now : Nat) (s : Storage) (cid : Nat) (m : String)
    (b : Bool) (s' : Storage) (h : verifyQr now s cid = (.error m b, s'))
    (hm : m ≠ "Challenge expired") : s' = s := by
  unfold verifyQr at h
  repeat' (first | split at h | simp_all)

theorem verifyQr_expired (now : Nat) (s : Storage) (cid : Nat) (c : Challenge)
    (hc : getChallenge s cid = some c) (hexp : c.expiresAt < now) :
    verifyQr now s cid = (.error "Challenge expired" false, deleteChallenge s c.id) := by
  simp only [verifyQr, hc, if_pos hexp]

/-- C2 (amended): every validation failure of the ceremony handlers
returns a typed error with the persisted state exactly as before the
request — except that verify-qr on an expired challenge deletes that
expired challenge record before returning its error (so its failure does
mutate stored state). -/
theorem c2_validation_failures_preserve_state :
    (∀ (hashPub : List Nat → String) (now : Nat) (s : Storage)
        (req : RegisterCompleteRequest) (m : String) (s' : Storage),
      registerComplete hashPub now s req = (.error m, s') → s' = s) ∧
    (∀ (sha256 : String → List Nat) (domain : String) (now : Nat) (s : Storage)
        (req : LoginCompleteRequest) (m : String) (s' : Storage),
      loginComplete sha256 domain now s req = (.error m, s') → s' = s) ∧
    (∀ (verifyOtp : String → String → Bool) (now : Nat) (s : Storage)
        (userId : Nat) (code : String) (ty : MfaReqType) (m : String)
        (s' : Storage),
      mfaVerify verifyOtp now s userId code ty = (.error m, s') → s' = s) ∧
    (∀ (now : Nat) (s : Storage) (cid : Nat) (m : String) (b : Bool)
        (s' : Storage),
      verifyQr now s cid = (.error m b, s') → m ≠ "Challenge expired" → s' = s) ∧
    (∀ (now : Nat) (s : Storage) (cid : Nat) (c : Challenge),
      getChallenge s cid = some c → c.expiresAt < now →
        verifyQr now s cid =
          (.error "Challenge expired" false, deleteChallenge s c.id)) :=
  ⟨registerComplete_error_state, loginComplete_error_state,
   mfaVerify_error_state,
   fun now s cid m b s' h hm => verifyQr_error_state now s cid m b s' h hm,
   verifyQr_expired⟩

/-- C2 counterexample: the claim as stated — "verify-qr on an expired
challenge returns its error without mutating stored state" — is false: at
a store holding one expired qrcode challenge, the failed verification
deletes the challenge, so the state after the request differs from the
state before. -/
theorem c2_counterexample :
    (verifyQr 20 expiredQrStorage 1).1 = .error "Challenge expired" false ∧
    (verifyQr 20 expiredQrStorage 1).2 ≠ expiredQrStorage := by
  exact ⟨by decide, by decide⟩

/-- Witness for C2 on concrete failing requests: a register-complete call
for an unknown user errors and leaves the (empty) store unchanged,
verify-qr on a missing challenge errors and leaves it unchanged, and
verify-qr on the expired challenge returns its error with exactly that
challenge deleted. -/
theorem c2_validation_failures_preserve_state_witness :
    (registerComplete (fun _ => "pk") 0 emptyStorage
        { email := "a@b.com", credRawId := "raw", attestationObject := [],
          clientData := none, transports := [],
          expectedChallenge := none }).2 = emptyStorage ∧
    (verifyQr 0 emptyStorage 5).2 = emptyStorage ∧
    verifyQr 20 expiredQrStorage 1 =
      (.error "Challenge expired" false, deleteChallenge expiredQrStorage 1) := by
  refine ⟨?_, ?_, ?_⟩
  · exact c2_validation_failures_preserve_state.1 (fun _ => "pk") 0 emptyStorage
      { email := "a@b.com", credRawId := "raw", attestationObject := [],
        clientData := none, transports := [], expectedChallenge := none }
      "User not found" _ (by decide)
  · exact c2_validation_failures_preserve_state.2.2.2.1 0 emptyStorage 5
      "Challenge not found" false _ (by decide) (by decide)
  · exact c2_validation_failures_preserve_state.2.2.2.2 20 expiredQrStorage 1
      expiredQrChallenge (by decide) (by decide)

/-! ## Claim C1 -/

/-- C1 counterexample: with two unexpired registration challenges for
user 7 (created at 0 and at 50) and no expected-challenge, the default
candidate is the OLDEST stored challenge, not the most-recently-created
one that `specMostRecentCandidate` (the spec's wording) selects — and a
complete-registration request presenting the most-recent challenge string
in its clientDataJSON is rejected with a challenge mismatch. -/
theorem c1_counterexample :
    defaultCandidate twoChallengeStorage 7 "registration" 60 =
      some regChallengeOld ∧
    specMostRecentCandidate twoChallengeStorage 7 "registration" 60 =
      some regChallengeNew ∧
    regChallengeOld.createdAt < regChallengeNew.createdAt ∧
    (registerComplete (fun _ => "pk") 60 twoChallengeStorage
      { email := "u@e.com", credRawId := "raw", attestationObject := [],
        clientData := some { challenge := "B", origin := "o" },
        transports := [], expectedChallenge := none }).1 =
      .error "Challenge mismatch" := by
  exact ⟨by decide, by decide, by decide, by decide⟩

/-- C1 (amended): when the client supplies no usable expected-challenge,
the default candidate is the first-stored active challenge of the
ceremony type; since MemStorage appends challenges in creation order,
that is the EARLIEST-created (minimal `createdAt`) of the unexpired
challenges of that type for the user, not the most-recently-created. -/
theorem c1_default_candidate_earliest
    (s : Storage) (userId : Nat) (ctype : String) (now : Nat) (c : Challenge)
    (hsorted : s.challenges.Pairwise (fun a b => a.createdAt ≤ b.createdAt))
    (hfind : defaultCandidate s userId ctype now = some c) :
    c.userId = some userId ∧ activeChallengeFilter ctype now c = true ∧
    ∀ c' ∈ s.challenges, c'.userId = some userId →
      activeChallengeFilter ctype now c' = true →
      c.createdAt ≤ c'.createdAt := by
  unfold defaultCandidate getChallengesByUserId at hfind
  have hcmem := List.mem_of_find?_eq_some hfind
  have hcp := List.find?_some hfind
  have hcfil := List.mem_filter.mp hcmem
  refine ⟨by simpa using hcfil.2, hcp, ?_⟩
  intro c' hc' hcu' hact'
  have hsorted' :
      (s.challenges.filter (fun ch => ch.userId == some userId)).Pairwise
        (fun a b => a.createdAt ≤ b.createdAt) :=
    hsorted.sublist (List.filter_sublist s.challenges)
  have hmem' : c' ∈ s.challenges.filter (fun ch => ch.userId == some userId) :=
    List.mem_filter.mpr ⟨hc', by simpa using hcu'⟩
  rcases find?_min_of_pairwise (fun a b => a.createdAt ≤ b.createdAt)
      (activeChallengeFilter ctype now) _ c c' hsorted' hfind hmem' hact' with
    heq | hle
  · rw [heq]
  · exact hle

/-- Witness for the amended C1 at the two-challenge fixture store. -/
theorem c1_default_candidate_earliest_witness :
    regChallengeOld.userId = some 7 ∧
    activeChallengeFilter "registration" 60 regChallengeOld = true ∧
    ∀ c' ∈ twoChallengeStorage.challenges, c'.userId = some 7 →
      activeChallengeFilter "registration" 60 c' = true →
      regChallengeOld.createdAt ≤ c'.createdAt :=
  c1_default_candidate_earliest twoChallengeStorage 7 "registration" 60
    regChallengeOld (by decide) (by decide)

/-! ## The success path of complete-login (shared by C3, C4, C5) -/

theorem selectCandidate_mem (challenges : List Challenge) (ctype : String)
    (now : Nat) (ec : Option String) (c0 : Challenge)
    (h0mem : c0 ∈ challenges)
    (h0act : activeChallengeFilter ctype now c0 = true) :
    selectCandidate challenges ctype now ec c0 ∈ challenges ∧
    activeChallengeFilter ctype now (selectCandidate challenges ctype now ec c0) =
      true := by
  unfold selectCandidate
  split
  · exact ⟨h0mem, h0act⟩
  split
  · split
    next m hm =>
      refine ⟨List.mem_of_find?_eq_some hm, ?_⟩
      have hp := List.find?_some hm
      unfold activeChallengeFilter
      simp only [Bool.and_eq_true, decide_eq_true_eq, beq_iff_eq] at hp ⊢
      exact ⟨hp.1.1, hp.2⟩
    next => exact ⟨h0mem, h0act⟩
  · exact ⟨h0mem, h0act⟩

theorem loginComplete_success_state (sha256 : String → List Nat)
    (domain : String) (now : Nat) (s : Storage) (req : LoginCompleteRequest)
    (u : User) (s' : Storage)
    (h : loginComplete sha256 domain now s req = (.success u, s')) :
    ∃ (cred : Credential) (challenge : Challenge) (clientData : ClientData)
      (parsed : ParsedAuthData),
      getUserByEmail s req.email = some u ∧
      getCredentialByCredentialId s req.credRawId = some cred ∧
      cred.userId = u.id ∧
      req.clientData = some clientData ∧
      challenge ∈ s.challenges ∧
      challenge.userId = some u.id ∧
      activeChallengeFilter "authentication" now challenge = true ∧
      challengesMatch clientData.challenge challenge.challenge = true ∧
      parseAuthenticatorData req.authenticatorData = some parsed ∧
      verifyRpIdHash sha256 req.authenticatorData domain = true ∧
      s' = deleteChallenge
        (updateCredentialRec s cred.id
          (fun c => { c with counter := parsed.counter })) challenge.id := by
  unfold loginComplete at h
  split at h
  · simp at h
  next user huser =>
  split at h
  · simp at h
  next cred hcred =>
  split at h
  · simp at h
  next hown =>
  split at h
  · simp at h
  next challenge0 hfind =>
  split at h
  · simp at h
  next clientData hclient =>
  split at h
  next hmatch =>
    split at h
    · simp at h
    next parsed hparse =>
    split at h
    next hrp =>
      simp only [Prod.mk.injEq, LoginResult.success.injEq] at h
      obtain ⟨huu, hs'⟩ := h
      subst huu
      have hown' : cred.userId = user.id := by
        simpa using hown
      have hc0mem :
          challenge0 ∈ s.challenges.filter (fun c => c.userId == some user.id) :=
        List.mem_of_find?_eq_some hfind
      have hc0act := List.find?_some hfind
      obtain ⟨hselmem, hselact⟩ :=
        selectCandidate_mem _ "authentication" now req.expectedChallenge
          challenge0 hc0mem hc0act
      have hselfil := List.mem_filter.mp hselmem
      exact ⟨cred,
        selectCandidate (getChallengesByUserId s user.id) "authentication" now
          req.expectedChallenge challenge0,
        clientData, parsed, huser, hcred, hown', hclient, hselfil.1,
        by simpa using hselfil.2, hselact, hmatch, hparse, hrp, hs'.symm⟩
    · simp at h
  · simp at h

/-! ## Claims C4 and C5 -/

/-- C4: over `loginStorage` (stored credential counter 5), a
complete-login whose authenticator data asserts any 32-bit counter n —
in particular 5, 3 and 6 — succeeds (the non-increasing counter check is
log-only), and the stored counter afterwards equals n, so asserting 6
leaves the stored counter at 6. -/
theorem c4_counter_soft_fail (n : Nat) (hn : n < 4294967296) :
    (loginComplete shaFix "localhost" 50 loginStorage (loginReq n)).1 =
      .success loginUser ∧
    getCredentialByCredentialId
      (loginComplete shaFix "localhost" 50 loginStorage (loginReq n)).2
      "cred1" = some { loginCredential with counter := n } := by
  have hcnt : n / 16777216 % 256 * 16777216 + n / 65536 % 256 * 65536 +
      n / 256 % 256 * 256 + n % 256 = n := by omega
  constructor
  · rfl
  · conv_rhs => rw [← hcnt]
    rfl

/-- Witness for C4 at asserted counters 5, 3 and 6. -/
theorem c4_counter_soft_fail_witness :
    (loginComplete shaFix "localhost" 50 loginStorage (loginReq 5)).1 =
      .success loginUser ∧
    (loginComplete shaFix "localhost" 50 loginStorage (loginReq 3)).1 =
      .success loginUser ∧
    (loginComplete shaFix "localhost" 50 loginStorage (loginReq 6)).1 =
      .success loginUser ∧
    getCredentialByCredentialId
      (loginComplete shaFix "localhost" 50 loginStorage (loginReq 6)).2
      "cred1" = some { loginCredential with counter := 6 } :=
  ⟨(c4_counter_soft_fail 5 (by omega)).1, (c4_counter_soft_fail 3 (by omega)).1,
   (c4_counter_soft_fail 6 (by omega)).1, (c4_counter_soft_fail 6 (by omega)).2⟩

/-- C5: every successful complete-login stores exactly the asserted
counter on the credential — including a value lower than the stored one,
so the stored counter is not monotonic across successful logins. -/
theorem c5_counter_set_to_asserted (sha256 : String → List Nat)
    (domain : String) (now : Nat) (s : Storage) (req : LoginCompleteRequest)
    (u : User) (s' : Storage) (parsed : ParsedAuthData) (cred : Credential)
    (hids : s.credentials.Pairwise (fun a b => a.id ≠ b.id))
    (h : loginComplete sha256 domain now s req = (.success u, s'))
    (hparse : parseAuthenticatorData req.authenticatorData = some parsed)
    (hcred : getCredentialByCredentialId s req.credRawId = some cred) :
    getCredentialByCredentialId s' req.credRawId =
      some { cred with counter := parsed.counter } := by
  obtain ⟨cred', ch, cd, parsed', _, hcred', _, _, _, _, _, _, hparse', _, hs'⟩ :=
    loginComplete_success_state sha256 domain now s req u s' h
  rw [hcred] at hcred'
  injection hcred' with hcc
  subst hcc
  rw [hparse] at hparse'
  injection hparse' with hpp
  subst hpp
  subst hs'
  have hcred2 : s.credentials.find?
      (fun c => c.credentialId == req.credRawId) = some cred := hcred
  have hcq := List.find?_some hcred2
  have hcmem := List.mem_of_find?_eq_some hcred2
  have huniq : ∀ x ∈ s.credentials, (x.id == cred.id) = true → x = cred := by
    intro x hx hxid
    exact pairwise_key_eq Credential.id s.credentials x cred hids hx hcmem
      (by simpa using hxid)
  exact find?_updateFirst_diff (fun c => c.id == cred.id)
    (fun c => c.credentialId == req.credRawId)
    (fun c => { c with counter := parsed.counter }) s.credentials cred
    hcred2 (by simpa using hcq) (by simp) huniq

/-- Witness for C5: with stored counter 5 and asserted counter 3 the
successful login stores 3 — strictly below the previous value. -/
theorem c5_counter_set_to_asserted_witness :
    getCredentialByCredentialId
      (loginComplete shaFix "localhost" 50 loginStorage (loginReq 3)).2
      "cred1" = some { loginCredential with counter := 3 } ∧
    (3 : Nat) < loginCredential.counter :=
  ⟨c5_counter_set_to_asserted shaFix "localhost" 50 loginStorage (loginReq 3)
      loginUser
      (loginComplete shaFix "localhost" 50 loginStorage (loginReq 3)).2
      { rpIdHash := List.replicate 32 0, flags := 5, counter := 3 }
      loginCredential (by decide) rfl rfl rfl,
   by decide⟩

/-! ## Claim C3 -/

theorem challengesMatch_norm (a b : String)
    (h : challengesMatch a b = true) :
    normalizeChallenge a = normalizeChallenge b := by
  unfold challengesMatch at h
  rw [Bool.or_eq_true] at h
  rcases h with h1 | h2
  · rw [eq_of_beq h1]
  · exact eq_of_beq h2

/-- C3: a challenge is consumed exactly once.  After a successful
complete-login over store `s` consuming a challenge, that challenge
record is gone from the resulting store `s'` (no stored challenge keeps
its id), and immediately re-submitting the same signed response fails
with the no-active-challenge or challenge-mismatch error, leaving `s'`
unchanged.  `huniq` states that distinct active authentication challenges
of the user carry distinct (normalisation-respecting) challenge strings,
which holds for the 32-byte random values the server issues. -/
theorem c3_challenge_exactly_once (sha256 : String → List Nat)
    (domain : String) (now : Nat) (s : Storage) (req : LoginCompleteRequest)
    (u : User) (s' : Storage)
    (hids : s.credentials.Pairwise (fun a b => a.id ≠ b.id))
    (h : loginComplete sha256 domain now s req = (.success u, s'))
    (huniq : ∀ c1 ∈ s.challenges, ∀ c2 ∈ s.challenges,
      c1.userId = some u.id → c2.userId = some u.id →
      activeChallengeFilter "authentication" now c1 = true →
      activeChallengeFilter "authentication" now c2 = true →
      normalizeChallenge c1.challenge = normalizeChallenge c2.challenge →
      c1.id = c2.id) :
    (∃ challenge, challenge ∈ s.challenges ∧ challenge.userId = some u.id ∧
      activeChallengeFilter "authentication" now challenge = true ∧
      ∀ c ∈ s'.challenges, c.id ≠ challenge.id) ∧
    ((loginComplete sha256 domain now s' req).1 =
        .error "No active challenge found" ∨
      (loginComplete sha256 domain now s' req).1 = .error "Challenge mismatch") ∧
    (loginComplete sha256 domain now s' req).2 = s' := by
  obtain ⟨cred, ch, cd, parsed, huser, hcred, hown, hclient, hchmem, hchuid,
    hchact, hmatch, hparse, hrp, hs'⟩ :=
    loginComplete_success_state sha256 domain now s req u s' h
  have hchallenges' :
      s'.challenges = s.challenges.filter (fun c => c.id != ch.id) := by
    rw [hs']
    rfl
  have hdel : ∀ c ∈ s'.challenges, c.id ≠ ch.id := by
    intro c hc
    rw [hchallenges'] at hc
    have := (List.mem_filter.mp hc).2
    simpa using this
  refine ⟨⟨ch, hchmem, hchuid, hchact, hdel⟩, ?_⟩
  -- facts about the post-state lookups
  have huser2 : getUserByEmail s' req.email = some u := by
    rw [hs']
    exact huser
  have hcred2' : getCredentialByCredentialId s' req.credRawId =
      some { cred with counter := parsed.counter } := by
    rw [hs']
    have hcred2 : s.credentials.find?
        (fun c => c.credentialId == req.credRawId) = some cred := hcred
    have hcq := List.find?_some hcred2
    have hcmem := List.mem_of_find?_eq_some hcred2
    have huniqc : ∀ x ∈ s.credentials, (x.id == cred.id) = true → x = cred := by
      intro x hx hxid
      exact pairwise_key_eq Credential.id s.credentials x cred hids hx hcmem
        (by simpa using hxid)
    exact find?_updateFirst_diff (fun c => c.id == cred.id)
      (fun c => c.credentialId == req.credRawId)
      (fun c => { c with counter := parsed.counter }) s.credentials cred
      hcred2 (by simpa using hcq) (by simp) huniqc
  have hown2 : (Credential.userId { cred with counter := parsed.counter } !=
      u.id) = false := by
    simp [hown]
  have hrun2 : loginComplete sha256 domain now s' req =
      (.error "No active challenge found", s') ∨
      loginComplete sha256 domain now s' req =
        (.error "Challenge mismatch", s') := by
    unfold loginComplete
    simp only [huser2, hcred2', hown2, Bool.false_eq_true, if_false, hclient]
    rcases hfa : (getChallengesByUserId s' u.id).find?
        (activeChallengeFilter "authentication" now) with _ | c0'
    · exact Or.inl rfl
    · right
      have hc0mem' := List.mem_of_find?_eq_some hfa
      have hc0act' := List.find?_some hfa
      obtain ⟨hselmem, hselact⟩ :=
        selectCandidate_mem _ "authentication" now req.expectedChallenge c0'
          hc0mem' hc0act'
      have key : ∀ cst : Challenge, cst ∈ getChallengesByUserId s' u.id →
          activeChallengeFilter "authentication" now cst = true →
          challengesMatch cd.challenge cst.challenge = false := by
        intro cst hmem hact
        by_contra hcon
        rw [Bool.not_eq_false] at hcon
        have hnorm1 := challengesMatch_norm _ _ hcon
        have hnorm0 := challengesMatch_norm _ _ hmatch
        have hfil := List.mem_filter.mp hmem
        have hmem2 := hfil.1
        rw [hchallenges'] at hmem2
        have hfil2 := List.mem_filter.mp hmem2
        have hideq : cst.id = ch.id :=
          huniq cst hfil2.1 ch hchmem (by simpa using hfil.2) hchuid hact
            hchact (hnorm1.symm.trans hnorm0)
        have hne := hfil2.2
        simp [hideq] at hne
      have hmm := key _ hselmem hselact
      simp only [hmm, Bool.false_eq_true, if_false]
  rcases hrun2 with h2 | h2 <;> rw [h2] <;> exact ⟨by simp, rfl⟩

/-- Witness for C3 at the concrete login scenario: the consumed challenge
is gone and the immediate replay of the same signed response fails. -/
theorem c3_challenge_exactly_once_witness :
    (∃ challenge, challenge ∈ loginStorage.challenges ∧
      challenge.userId = some loginUser.id ∧
      activeChallengeFilter "authentication" 50 challenge = true ∧
      ∀ c ∈ (loginComplete shaFix "localhost" 50 loginStorage
          (loginReq 6)).2.challenges,
        c.id ≠ challenge.id) ∧
    ((loginComplete shaFix "localhost" 50
        (loginComplete shaFix "localhost" 50 loginStorage (loginReq 6)).2
        (loginReq 6)).1 = .error "No active challenge found" ∨
      (loginComplete shaFix "localhost" 50
        (loginComplete shaFix "localhost" 50 loginStorage (loginReq 6)).2
        (loginReq 6)).1 = .error "Challenge mismatch") ∧
    (loginComplete shaFix "localhost" 50
      (loginComplete shaFix "localhost" 50 loginStorage (loginReq 6)).2
      (loginReq 6)).2 =
      (loginComplete shaFix "localhost" 50 loginStorage (loginReq 6)).2 :=
  c3_challenge_exactly_once shaFix "localhost" 50 loginStorage (loginReq 6)
    loginUser (loginComplete shaFix "localhost" 50 loginStorage (loginReq 6)).2
    (by decide) rfl (by decide)

/-! ## Claim C9 -/

/-- C9: password login with the correct password for an MFA-enabled user
does not establish a session (the result is `requiresMfa`, never
`success`) and does not touch `lastLogin`; it carries the user id and
mfaType.  For email/sms it first stores a fresh 6-digit code expiring in
10 minutes on the user record; for totp nothing is generated or stored
(the state is unchanged). -/
theorem c9_password_login_mfa_gate (comparePw : String → String → Bool)
    (r now : Nat) (s : Storage) (username password : String) (u : User)
    (pw : String) (hr : r < 900000)
    (huser : getUserByUsername s username = some u)
    (hbyid : getUser s u.id = some u)
    (hpw : u.password = some pw)
    (hcmp : comparePw password pw = true)
    (hmfa : u.mfaEnabled = true) :
    ((u.mfaType = some "email" ∨ u.mfaType = some "sms") →
      (loginPassword comparePw r now s username password).1 =
        .requiresMfa u.id u.mfaType (some (toString (100000 + r))) ∧
      ∃ u', getUser (loginPassword comparePw r now s username password).2 u.id =
          some u' ∧
        u'.verificationCode = some (toString (100000 + r)) ∧
        u'.verificationExpiry = some (now + 600000) ∧
        u'.lastLogin = u.lastLogin ∧
        100000 ≤ 100000 + r ∧ 100000 + r ≤ 999999) ∧
    (u.mfaType = some "totp" →
      loginPassword comparePw r now s username password =
        (.requiresMfa u.id u.mfaType none, s)) := by
  have hrun : loginPassword comparePw r now s username password =
      (if u.mfaType == some "email" || u.mfaType == some "sms" then
        (.requiresMfa u.id u.mfaType (some (generateEmailVerificationCode r)),
          (updateUserRec s u.id (fun v =>
            { v with
                verificationCode := some (generateEmailVerificationCode r),
                verificationExpiry :=
                  some (getVerificationCodeExpiry 10 now) })).1)
       else (.requiresMfa u.id u.mfaType none, s)) := by
    unfold loginPassword
    rw [huser]
    simp only [hpw, hcmp, hmfa, Bool.not_true, Bool.false_eq_true, if_false,
      if_true]
  constructor
  · intro hms
    have hmsb : (u.mfaType == some "email" || u.mfaType == some "sms") =
        true := by
      rcases hms with h1 | h1 <;> simp [h1]
    rw [if_pos hmsb] at hrun
    have hupd : (updateUserRec s u.id (fun v =>
        { v with
            verificationCode := some (generateEmailVerificationCode r),
            verificationExpiry := some (getVerificationCodeExpiry 10 now) })).1 =
        { s with
            users := updateFirst (fun v => v.id == u.id)
              (fun v =>
                { v with
                    verificationCode := some (generateEmailVerificationCode r),
                    verificationExpiry :=
                      some (getVerificationCodeExpiry 10 now) })
              s.users } := by
      unfold updateUserRec
      rw [show s.users.find? (fun v => v.id == u.id) = some u from hbyid]
    have hbyid2 : s.users.find? (fun v => v.id == u.id) = some u := hbyid
    have hsnd : (loginPassword comparePw r now s username password).2 =
        (updateUserRec s u.id (fun v =>
          { v with
              verificationCode := some (generateEmailVerificationCode r),
              verificationExpiry :=
                some (getVerificationCodeExpiry 10 now) })).1 := by
      rw [hrun]
    have hget : getUser (loginPassword comparePw r now s username password).2
        u.id = some { u with
          verificationCode := some (generateEmailVerificationCode r),
          verificationExpiry := some (getVerificationCodeExpiry 10 now) } := by
      rw [hsnd, hupd]
      exact find?_updateFirst_same (fun v => v.id == u.id)
        (fun v =>
          { v with
              verificationCode := some (generateEmailVerificationCode r),
              verificationExpiry := some (getVerificationCodeExpiry 10 now) })
        s.users u hbyid2 (by simp)
    refine ⟨by rw [hrun]; rfl, ⟨_, hget, rfl, ?_, rfl, by omega, by omega⟩⟩
    show some (now + 10 * 60000) = some (now + 600000)
    norm_num
  · intro htotp
    have hmsb : (u.mfaType == some "email" || u.mfaType == some "sms") =
        false := by
      simp [htotp]
    rw [if_neg (by simp [hmsb])] at hrun
    exact hrun

/-- Witness for C9: email-MFA user logging in with the right password. -/
theorem c9_password_login_mfa_gate_witness :
    (loginPassword eqComparePw 1 1000 mfaEmailStorage "bob" "hash").1 =
      .requiresMfa mfaEmailUser.id mfaEmailUser.mfaType (some "100001") ∧
    ∃ u', getUser (loginPassword eqComparePw 1 1000 mfaEmailStorage "bob"
        "hash").2 mfaEmailUser.id = some u' ∧
      u'.verificationCode = some "100001" ∧
      u'.verificationExpiry = some 601000 ∧
      u'.lastLogin = some 7 := by
  have h := (c9_password_login_mfa_gate eqComparePw 1 1000 mfaEmailStorage
    "bob" "hash" mfaEmailUser "hash" (by omega) (by decide) (by decide)
    (by decide) (by decide) (by decide)).1 (Or.inl (by decide))
  obtain ⟨h1, u', hget, hcode, hexp, hlast, _⟩ := h
  exact ⟨h1, u', hget, hcode, hexp, by rw [hlast]; rfl⟩

/-! ## Claim C7 -/

theorem getUser_createRecoveryCodes (now : Nat) (codes : List String)
    (s : Storage) (owner uid : Nat) :
    getUser (createRecoveryCodes now owner codes s) uid = getUser s uid :=
  getUser_eq_of_users_eq _ _ (users_createRecoveryCodes _ _ _ _) _

theorem getUser_createRecoveryCodes_updateUser (now : Nat)
    (codes : List String) (s : Storage) (u : User) (f : User → User)
    (hu2 : s.users.find? (fun v => v.id == u.id) = some u)
    (hfid : ((f u).id == u.id) = true) :
    getUser (createRecoveryCodes now u.id codes (updateUserRec s u.id f).1)
      u.id = some (f u) := by
  rw [getUser_createRecoveryCodes]
  show (updateUserRec s u.id f).1.users.find? (fun v => v.id == u.id) = _
  unfold updateUserRec
  rw [hu2]
  exact find?_updateFirst_same _ f s.users u hu2 hfid

theorem mfaSetup_preserves_mfa (now : Nat) (codes : List String) (r : Nat)
    (s : Storage) (uid : Nat) (u : User) (ty : MfaSetupType)
    (hu : getUser s uid = some u) :
    ∃ u', getUser (mfaSetup now codes r s uid ty).2 uid = some u' ∧
      u'.mfaEnabled = u.mfaEnabled ∧ u'.mfaType = u.mfaType ∧
      u'.mfaSecret = u.mfaSecret := by
  have huid : u.id = uid := by simpa using List.find?_some hu
  subst huid
  have hu2 : s.users.find? (fun v => v.id == u.id) = some u := hu
  cases ty with
  | totp =>
      refine ⟨u, ?_, rfl, rfl, rfl⟩
      have hres : (mfaSetup now codes r s u.id .totp).2 =
          createRecoveryCodes now u.id codes s := by
        unfold mfaSetup
        rw [hu]
      rw [hres, getUser_createRecoveryCodes]
      exact hu
  | email =>
      by_cases he : (u.email == "") = true
      · refine ⟨u, ?_, rfl, rfl, rfl⟩
        have hres : (mfaSetup now codes r s u.id .email).2 = s := by
          unfold mfaSetup
          simp only [hu, he, if_true]
        rw [hres]
        exact hu
      · have hres : (mfaSetup now codes r s u.id .email).2 =
            createRecoveryCodes now u.id codes
              (updateUserRec s u.id (fun v =>
                { v with
                    verificationCode :=
                      some (generateEmailVerificationCode r),
                    verificationExpiry :=
                      some (getVerificationCodeExpiry 10 now) })).1 := by
          unfold mfaSetup
          simp only [hu, he, Bool.false_eq_true, if_false]
        have hget := getUser_createRecoveryCodes_updateUser now codes s u
          (fun v =>
            { v with
                verificationCode := some (generateEmailVerificationCode r),
                verificationExpiry := some (getVerificationCodeExpiry 10 now) })
          hu2 (by simp)
        exact ⟨{ u with
            verificationCode := some (generateEmailVerificationCode r),
            verificationExpiry := some (getVerificationCodeExpiry 10 now) },
          by rw [hres]; exact hget, rfl, rfl, rfl⟩
  | sms =>
      by_cases he : (u.phone.getD "" == "") = true
      · refine ⟨u, ?_, rfl, rfl, rfl⟩
        have hres : (mfaSetup now codes r s u.id .sms).2 = s := by
          unfold mfaSetup
          simp only [hu, he, if_true]
        rw [hres]
        exact hu
      · have hres : (mfaSetup now codes r s u.id .sms).2 =
            createRecoveryCodes now u.id codes
              (updateUserRec s u.id (fun v =>
                { v with
                    verificationCode :=
                      some (generateEmailVerificationCode r),
                    verificationExpiry :=
                      some (getVerificationCodeExpiry 10 now) })).1 := by
          unfold mfaSetup
          simp only [hu, he, Bool.false_eq_true, if_false]
        have hget := getUser_createRecoveryCodes_updateUser now codes s u
          (fun v =>
            { v with
                verificationCode := some (generateEmailVerificationCode r),
                verificationExpiry := some (getVerificationCodeExpiry 10 now) })
          hu2 (by simp)
        exact ⟨{ u with
            verificationCode := some (generateEmailVerificationCode r),
            verificationExpiry := some (getVerificationCodeExpiry 10 now) },
          by rw [hres]; exact hget, rfl, rfl, rfl⟩

theorem mfaEnable_error_state (verifyOtp : String → String → Bool) (now : Nat)
    (s : Storage) (userId : Nat) (ty : MfaSetupType) (code : String)
    (secret : Option String) (m : String) (s' : Storage)
    (h : mfaEnable verifyOtp now s userId ty code secret = (.error m, s')) :
    s' = s := by
  unfold mfaEnable at h
  repeat' (first | split at h | simp_all)

theorem mfaEnable_success_enabled (verifyOtp : String → String → Bool)
    (now : Nat) (s : Storage) (userId : Nat) (ty : MfaSetupType)
    (code : String) (secret : Option String) (v : Option User) (s' : Storage)
    (h : mfaEnable verifyOtp now s userId ty code secret = (.success v, s')) :
    ∃ u', getUser s' userId = some u' ∧ u'.mfaEnabled = true := by
  unfold mfaEnable at h
  split at h
  · simp at h
  next user huser =>
  have huid : user.id = userId := by simpa using List.find?_some huser
  subst huid
  have hu2 : s.users.find? (fun w => w.id == user.id) = some user := huser
  split at h
  · split at h
    · simp at h
    next sec =>
      split at h
      · simp only [Prod.mk.injEq, MfaEnableResult.success.injEq] at h
        refine ⟨{ user with
            mfaEnabled := true, mfaType := some "totp",
            mfaSecret := some sec }, ?_, rfl⟩
        rw [← h.2]
        show (updateUserRec s user.id _).1.users.find?
          (fun w => w.id == user.id) = _
        unfold updateUserRec
        rw [hu2]
        exact find?_updateFirst_same (fun w => w.id == user.id)
          (fun w =>
            { w with
                mfaEnabled := true, mfaType := some "totp",
                mfaSecret := some sec })
          s.users user hu2 (by simp)
      · simp at h
  next hne =>
    split at h
    next vc ve =>
      split at h
      · simp at h
      · split at h
        · simp only [Prod.mk.injEq, MfaEnableResult.success.injEq] at h
          refine ⟨{ user with
              mfaEnabled := true,
              mfaType := some (mfaSetupTypeString ty),
              verificationCode := none, verificationExpiry := none }, ?_, rfl⟩
          rw [← h.2]
          show (updateUserRec s user.id _).1.users.find?
            (fun w => w.id == user.id) = _
          unfold updateUserRec
          rw [hu2]
          exact find?_updateFirst_same (fun w => w.id == user.id)
            (fun w =>
              { w with
                  mfaEnabled := true,
                  mfaType := some (mfaSetupTypeString ty),
                  verificationCode := none, verificationExpiry := none })
            s.users user hu2 (by simp)
        · simp at h
    · simp at h

theorem mfaDisable_correct_password (comparePw : String → String → Bool)
    (s : Storage) (uid : Nat) (password : String) (u : User) (pw : String)
    (hu : getUser s uid = some u)
    (hpw : u.password = some pw)
    (hcmp : comparePw password pw = true) :
    ∃ u', getUser (mfaDisable comparePw s uid password).2 uid = some u' ∧
      u'.mfaEnabled = false ∧ u'.mfaType = none ∧ u'.mfaSecret = none ∧
      (getRecoveryCodesByUserId (mfaDisable comparePw s uid password).2
        uid).length = 0 := by
  have huid : u.id = uid := by simpa using List.find?_some hu
  subst huid
  have hu2 : s.users.find? (fun v => v.id == u.id) = some u := hu
  have hrun : mfaDisable comparePw s u.id password =
      (.success (getUser (deleteAllRecoveryCodesByUserId
          (updateUserRec s u.id (fun v =>
            { v with mfaEnabled := false, mfaType := none,
                     mfaSecret := none })).1 u.id) u.id),
        deleteAllRecoveryCodesByUserId
          (updateUserRec s u.id (fun v =>
            { v with mfaEnabled := false, mfaType := none,
                     mfaSecret := none })).1 u.id) := by
    unfold mfaDisable
    simp only [hu, hpw, hcmp, if_true]
  refine ⟨{ u with mfaEnabled := false, mfaType := none, mfaSecret := none },
    ?_, rfl, rfl, rfl, ?_⟩
  · rw [hrun]
    show (updateUserRec s u.id _).1.users.find? (fun v => v.id == u.id) = _
    unfold updateUserRec
    rw [hu2]
    exact find?_updateFirst_same (fun v => v.id == u.id)
      (fun v =>
        { v with mfaEnabled := false, mfaType := none, mfaSecret := none })
      s.users u hu2 (by simp)
  · rw [hrun]
    show (((updateUserRec s u.id _).1.recoveryCodes.filter
      (fun c => c.userId != u.id)).filter (fun c => c.userId == u.id)).length = 0
    rw [List.filter_filter]
    rw [show ((updateUserRec s u.id (fun v =>
      { v with mfaEnabled := false, mfaType := none,
               mfaSecret := none })).1.recoveryCodes) = s.recoveryCodes from by
      unfold updateUserRec
      rw [hu2]]
    rw [List.filter_eq_nil_iff.mpr]
    · rfl
    · intro c _
      simp only [Bool.and_eq_true, beq_iff_eq, bne_iff_ne, ne_eq]
      rintro ⟨h1, h2⟩
      exact h2 h1

/-- C7: the MFA state machine.  From any store: (1) mfa-setup of any type
leaves the user's `mfaEnabled`, `mfaType` and `mfaSecret` unchanged (in
particular still disabled when it was); (2) mfa-enable changes nothing on
a failed verification, and a successful one leaves the user with
`mfaEnabled = true`; (3) mfa-disable with the correct password sets
`mfaEnabled` to false, clears `mfaType` and `mfaSecret`, and deletes all
of the user's recovery codes (their count afterwards is 0). -/
theorem c7_mfa_state_machine (comparePw : String → String → Bool)
    (s : Storage) (uid : Nat) (u : User) (password pw : String)
    (hu : getUser s uid = some u)
    (hpw : u.password = some pw)
    (hcmp : comparePw password pw = true) :
    (∀ now codes r ty, ∃ u',
        getUser (mfaSetup now codes r s uid ty).2 uid = some u' ∧
        u'.mfaEnabled = u.mfaEnabled ∧ u'.mfaType = u.mfaType ∧
        u'.mfaSecret = u.mfaSecret) ∧
    (∀ verifyOtp now ty code secret,
        (∀ m s', mfaEnable verifyOtp now s uid ty code secret =
            (.error m, s') → s' = s) ∧
        (∀ v s', mfaEnable verifyOtp now s uid ty code secret =
            (.success v, s') →
          ∃ u', getUser s' uid = some u' ∧ u'.mfaEnabled = true)) ∧
    (∃ u', getUser (mfaDisable comparePw s uid password).2 uid = some u' ∧
        u'.mfaEnabled = false ∧ u'.mfaType = none ∧ u'.mfaSecret = none ∧
        (getRecoveryCodesByUserId (mfaDisable comparePw s uid password).2
          uid).length = 0) :=
  ⟨fun now codes r ty => mfaSetup_preserves_mfa now codes r s uid u ty hu,
   fun verifyOtp now ty code secret =>
     ⟨fun m s' h => mfaEnable_error_state verifyOtp now s uid ty code secret
        m s' h,
      fun v s' h => mfaEnable_success_enabled verifyOtp now s uid ty code
        secret v s' h⟩,
   mfaDisable_correct_password comparePw s uid password u pw hu hpw hcmp⟩

/-- Witness for C7: concrete setup and disable runs for the fixture user. -/
theorem c7_mfa_state_machine_witness :
    (∃ u', getUser (mfaSetup 0 ["AAAAA-BBBBB"] 0 mfaEmailStorage 2
        .totp).2 2 = some u' ∧
      u'.mfaEnabled = mfaEmailUser.mfaEnabled ∧
      u'.mfaType = mfaEmailUser.mfaType ∧
      u'.mfaSecret = mfaEmailUser.mfaSecret) ∧
    (∃ u', getUser (mfaDisable eqComparePw mfaEmailStorage 2 "hash").2 2 =
        some u' ∧
      u'.mfaEnabled = false ∧ u'.mfaType = none ∧ u'.mfaSecret = none ∧
      (getRecoveryCodesByUserId
        (mfaDisable eqComparePw mfaEmailStorage 2 "hash").2 2).length = 0) := by
  have h := c7_mfa_state_machine eqComparePw mfaEmailStorage 2 mfaEmailUser
    "hash" "hash" (by decide) (by decide) (by decide)
  exact ⟨h.1 0 ["AAAAA-BBBBB"] 0 .totp, h.2.2⟩

/-! ## Claim C8 -/

theorem find?_key_of_mem {α : Type} (g : α → Nat) :
    ∀ (l : List α) (a : α), l.Pairwise (fun x y => g x ≠ g y) → a ∈ l →
      l.find? (fun x => g x == g a) = some a := by
  intro l
  induction l with
  | nil => intro a _ ha; cases ha
  | cons x xs ih =>
      intro a hp ha
      rw [List.pairwise_cons] at hp
      by_cases hgx : (g x == g a) = true
      · have hfx : List.find? (fun y => g y == g a) (x :: xs) = some x := by
          simp [List.find?_cons, hgx]
        rw [hfx]
        rcases List.mem_cons.mp ha with ha' | ha'
        · rw [ha']
        · exact absurd (by simpa using hgx) (hp.1 a ha')
      · have hfx : List.find? (fun y => g y == g a) (x :: xs) =
            List.find? (fun y => g y == g a) xs := by
          simp [List.find?_cons, hgx]
        rw [hfx]
        rcases List.mem_cons.mp ha with ha' | ha'
        · exact absurd (by simp [ha']) hgx
        · exact ih a hp.2 ha'

/-- C8: recovery codes are single-use.  An unused recovery code of an
MFA-enabled user verifies successfully exactly once: the first
mfa-verify succeeds (establishing the session), marking the record used
with a `usedAt` timestamp; submitting the same code again fails with the
invalid-recovery-code error, establishes no session, and leaves the
store unchanged.  `hcuniq` is the natural uniqueness of the random code
strings. -/
theorem c8_recovery_code_single_use (verifyOtp : String → String → Bool)
    (now now2 : Nat) (s : Storage) (uid : Nat) (code : String) (u : User)
    (rc : RecoveryCode)
    (hu : getUser s uid = some u)
    (hmfa : u.mfaEnabled = true)
    (hrc : getRecoveryCodeByCode s code = some rc)
    (hrcuid : rc.userId = uid)
    (hidsrc : s.recoveryCodes.Pairwise (fun a b => a.id ≠ b.id))
    (hcuniq : ∀ rc' ∈ s.recoveryCodes, rc'.code = code → rc'.id = rc.id) :
    (mfaVerify verifyOtp now s uid code .recovery).1 = .success u ∧
    (∃ rc1, getRecoveryCode (mfaVerify verifyOtp now s uid code .recovery).2
        rc.id = some rc1 ∧ rc1.used = true ∧ rc1.usedAt = some now) ∧
    (mfaVerify verifyOtp now2
        (mfaVerify verifyOtp now s uid code .recovery).2 uid code
        .recovery).1 = .error "Invalid recovery code" ∧
    (mfaVerify verifyOtp now2
        (mfaVerify verifyOtp now s uid code .recovery).2 uid code
        .recovery).2 = (mfaVerify verifyOtp now s uid code .recovery).2 := by
  have huid : u.id = uid := by simpa using List.find?_some hu
  subst huid
  have hu2 : s.users.find? (fun w => w.id == u.id) = some u := hu
  have hprc := List.find?_some hrc
  have hrcmem := List.mem_of_find?_eq_some hrc
  have hrccode : rc.code = code := by
    have := hprc
    simp only [Bool.and_eq_true, beq_iff_eq] at this
    exact this.1
  have hrcused : rc.used = false := by
    have := hprc
    simp only [Bool.and_eq_true, Bool.not_eq_eq_eq_not, Bool.not_true] at this
    exact this.2
  have hcond : (rc.userId != u.id || rc.used) = false := by
    simp [hrcuid, hrcused]
  -- the first run
  have hrun : mfaVerify verifyOtp now s u.id code .recovery =
      (.success u,
        (updateUserRec
          (updateRecoveryCodeRec s rc.id (fun c =>
            { c with used := true, usedAt := some now })) u.id
          (fun w => { w with lastLogin := some now })).1) := by
    unfold mfaVerify mfaFinishLogin
    simp only [hu, hmfa, Bool.not_true, Bool.false_eq_true, if_false, hrc,
      hcond]
  have hfindA : (updateRecoveryCodeRec s rc.id (fun c =>
      { c with used := true, usedAt := some now })).users.find?
      (fun w => w.id == u.id) = some u := hu2
  have hs1users : (updateUserRec
      (updateRecoveryCodeRec s rc.id (fun c =>
        { c with used := true, usedAt := some now })) u.id
      (fun w => { w with lastLogin := some now })).1 =
      { (updateRecoveryCodeRec s rc.id (fun c =>
          { c with used := true, usedAt := some now })) with
          users := updateFirst (fun w => w.id == u.id)
            (fun w => { w with lastLogin := some now }) s.users } := by
    unfold updateUserRec
    rw [hfindA]
    rfl
  rw [hrun]
  have hrcfind : s.recoveryCodes.find? (fun x => x.id == rc.id) = some rc := by
    have := find?_key_of_mem RecoveryCode.id s.recoveryCodes rc hidsrc hrcmem
    exact this
  refine ⟨rfl, ?_, ?_⟩
  · -- the record is marked used with a timestamp
    refine ⟨{ rc with used := true, usedAt := some now }, ?_, rfl, rfl⟩
    show getRecoveryCode (updateUserRec
        (updateRecoveryCodeRec s rc.id (fun c =>
          { c with used := true, usedAt := some now })) u.id
        (fun w => { w with lastLogin := some now })).1 rc.id = _
    rw [hs1users]
    show (updateFirst (fun c => c.id == rc.id)
      (fun c => { c with used := true, usedAt := some now })
      s.recoveryCodes).find? (fun c => c.id == rc.id) = _
    exact find?_updateFirst_same (fun c => c.id == rc.id)
      (fun c => { c with used := true, usedAt := some now })
      s.recoveryCodes rc hrcfind (by simp)
  · -- the replay fails with the invalid-recovery-code error
    have hget1 : getUser ((updateUserRec
        (updateRecoveryCodeRec s rc.id (fun c =>
          { c with used := true, usedAt := some now })) u.id
        (fun w => { w with lastLogin := some now })).1) u.id =
        some { u with lastLogin := some now } := by
      rw [hs1users]
      show (updateFirst (fun w => w.id == u.id) _ s.users).find?
        (fun w => w.id == u.id) = _
      exact find?_updateFirst_same (fun w => w.id == u.id)
        (fun w => { w with lastLogin := some now }) s.users u hu2 (by simp)
    have hnone : getRecoveryCodeByCode ((updateUserRec
        (updateRecoveryCodeRec s rc.id (fun c =>
          { c with used := true, usedAt := some now })) u.id
        (fun w => { w with lastLogin := some now })).1) code = none := by
      rw [hs1users]
      show (updateFirst (fun c => c.id == rc.id)
        (fun c => { c with used := true, usedAt := some now })
        s.recoveryCodes).find? (fun c => c.code == code && !c.used) = none
      rw [List.find?_eq_none]
      intro y hy
      rcases mem_updateFirst_unique RecoveryCode.id
          (fun c => { c with used := true, usedAt := some now }) rc.id
          s.recoveryCodes rc hidsrc hrcmem rfl y hy with
        hy1 | ⟨hy2, hy3⟩
      · rw [hy1]
        simp
      · intro hcontra
        simp only [Bool.and_eq_true, beq_iff_eq] at hcontra
        exact hy3 (hcuniq y hy2 hcontra.1)
    have hrun2 : mfaVerify verifyOtp now2 ((updateUserRec
        (updateRecoveryCodeRec s rc.id (fun c =>
          { c with used := true, usedAt := some now })) u.id
        (fun w => { w with lastLogin := some now })).1) u.id code .recovery =
        (.error "Invalid recovery code",
          (updateUserRec
            (updateRecoveryCodeRec s rc.id (fun c =>
              { c with used := true, usedAt := some now })) u.id
            (fun w => { w with lastLogin := some now })).1) := by
      unfold mfaVerify
      simp only [hget1, hnone, hmfa, Bool.not_true, Bool.false_eq_true,
        if_false]
    constructor
    · show (mfaVerify verifyOtp now2 ((updateUserRec
          (updateRecoveryCodeRec s rc.id (fun c =>
            { c with used := true, usedAt := some now })) u.id
          (fun w => { w with lastLogin := some now })).1) u.id code
          .recovery).1 = _
      rw [hrun2]
    · show (mfaVerify verifyOtp now2 ((updateUserRec
          (updateRecoveryCodeRec s rc.id (fun c =>
            { c with used := true, usedAt := some now })) u.id
          (fun w => { w with lastLogin := some now })).1) u.id code
          .recovery).2 = _
      rw [hrun2]

/-- Witness for C8 at the concrete one-code store. -/
theorem c8_recovery_code_single_use_witness :
    (mfaVerify (fun _ _ => false) 10 recStorage 2 "AAAAA-BBBBB" .recovery).1 =
      .success mfaEmailUser ∧
    (∃ rc1, getRecoveryCode
        (mfaVerify (fun _ _ => false) 10 recStorage 2 "AAAAA-BBBBB"
          .recovery).2 recCode.id = some rc1 ∧ rc1.used = true ∧
      rc1.usedAt = some 10) ∧
    (mfaVerify (fun _ _ => false) 20
        (mfaVerify (fun _ _ => false) 10 recStorage 2 "AAAAA-BBBBB"
          .recovery).2 2 "AAAAA-BBBBB" .recovery).1 =
      .error "Invalid recovery code" :=
  have h := c8_recovery_code_single_use (fun _ _ => false) 10 20 recStorage 2
    "AAAAA-BBBBB" mfaEmailUser recCode (by decide) (by decide) (by decide)
    (by decide) (by decide) (by decide)
  ⟨h.1, h.2.1, h.2.2.1⟩

/-! ## Claim C6 -/

theorem bytesOfSextets_sextetsOfBytes :
    ∀ (l : List Nat), (∀ b ∈ l, b < 256) →
      bytesOfSextets (sextetsOfBytes l) = l
  | [], _ => rfl
  | [a], hb => by
      have ha : a < 256 := hb a (by simp)
      simp only [sextetsOfBytes, bytesOfSextets, List.cons.injEq, and_true]
      omega
  | [a, b], hb => by
      have ha : a < 256 := hb a (by simp)
      have hbb : b < 256 := hb b (by simp)
      simp only [sextetsOfBytes, bytesOfSextets, List.cons.injEq, and_true]
      constructor <;> omega
  | a :: b :: c :: rest, hb => by
      have ha : a < 256 := hb a (by simp)
      have hbb : b < 256 := hb b (by simp)
      have hc : c < 256 := hb c (by simp)
      have ih := bytesOfSextets_sextetsOfBytes rest
        (fun x hx => hb x (by simp [hx]))
      simp only [sextetsOfBytes, bytesOfSextets, List.cons.injEq]
      refine ⟨by omega, by omega, by omega, ih⟩

theorem sextets_lt_64 :
    ∀ (l : List Nat), (∀ b ∈ l, b < 256) →
      ∀ x ∈ sextetsOfBytes l, x < 64
  | [], _ => by simp [sextetsOfBytes]
  | [a], hb => by
      have ha : a < 256 := hb a (by simp)
      simp only [sextetsOfBytes, List.mem_cons, List.not_mem_nil, or_false]
      rintro x (rfl | rfl) <;> omega
  | [a, b], hb => by
      have ha : a < 256 := hb a (by simp)
      have hbb : b < 256 := hb b (by simp)
      simp only [sextetsOfBytes, List.mem_cons, List.not_mem_nil, or_false]
      rintro x (rfl | rfl | rfl) <;> omega
  | a :: b :: c :: rest, hb => by
      have ha : a < 256 := hb a (by simp)
      have hbb : b < 256 := hb b (by simp)
      have hc : c < 256 := hb c (by simp)
      have ih := sextets_lt_64 rest (fun x hx => hb x (by simp [hx]))
      simp only [sextetsOfBytes, List.mem_cons]
      rintro x (rfl | rfl | rfl | rfl | hx)
      · omega
      · omega
      · omega
      · omega
      · exact ih x hx

theorem charToSextet_roundtrip :
    ∀ n < 64, charToSextet (urlToB64Char (b64ToUrlChar (sextetToChar n))) =
      some n := by
  decide

theorem sextetChar_ne_pad :
    ∀ n < 64, (b64ToUrlChar (sextetToChar n)) ≠ '=' := by
  decide

theorem filterMap_eq_self_of {α : Type} (f : α → Option α) :
    ∀ (l : List α), (∀ x ∈ l, f x = some x) → l.filterMap f = l := by
  intro l
  induction l with
  | nil => intro _; rfl
  | cons x xs ih =>
      intro hf
      rw [List.filterMap_cons, hf x (List.mem_cons_self x xs),
        ih (fun y hy => hf y (List.mem_cons_of_mem x hy))]

set_option maxHeartbeats 1000000 in
/-- C6: the Base64URL codec round-trips exactly: decoding the encoding of
any byte sequence returns the byte sequence, where encoding substitutes
`+`→`-`, `/`→`_` and strips `=` padding, and decoding re-pads to a
multiple of 4 with `=` before reversing the substitutions. -/
theorem c6_base64url_roundtrip (B : List Nat) (hB : ∀ b ∈ B, b < 256) :
    base64URLToBuffer (bufferToBase64URL B) = B := by
  have hs64 := sextets_lt_64 B hB
  -- the stripped url-safe character stream is exactly the sextet stream
  have hchars : ((base64EncodeChars B).map b64ToUrlChar).filter
      (fun c => decide (c ≠ '=')) =
      (sextetsOfBytes B).map (b64ToUrlChar ∘ sextetToChar) := by
    unfold base64EncodeChars
    rw [List.map_append, List.filter_append, List.map_replicate,
      show b64ToUrlChar '=' = '=' from rfl]
    have h2 : (List.replicate ((3 - B.length % 3) % 3) '=').filter
        (fun c => decide (c ≠ '=')) = [] := by
      rw [List.filter_eq_nil_iff]
      intro a ha
      have := List.eq_of_mem_replicate ha
      simp [this]
    rw [h2, List.append_nil, List.map_map]
    refine List.filter_eq_self.mpr ?_
    intro a ha
    rw [List.mem_map] at ha
    obtain ⟨n, hn, rfl⟩ := ha
    simpa using sextetChar_ne_pad n (hs64 n hn)
  show base64URLToBuffer (((base64EncodeChars B).map b64ToUrlChar).filter
    (fun c => decide (c ≠ '='))).asString = B
  rw [hchars]
  unfold base64URLToBuffer
  rw [List.toList_asString, List.map_map]
  unfold base64DecodeChars
  rw [List.filterMap_append]
  have hpad : (List.replicate
      ((4 - ((sextetsOfBytes B).map
        (urlToB64Char ∘ b64ToUrlChar ∘ sextetToChar)).length % 4)
        % 4) '=').filterMap charToSextet = [] := by
    rw [List.filterMap_eq_nil_iff]
    intro a ha
    have := List.eq_of_mem_replicate ha
    rw [this]
    rfl
  rw [hpad, List.append_nil, List.filterMap_map]
  rw [filterMap_eq_self_of
    (charToSextet ∘ urlToB64Char ∘ b64ToUrlChar ∘ sextetToChar)
    (sextetsOfBytes B)
    (fun x hx => charToSextet_roundtrip x (hs64 x hx))]
  exact bytesOfSextets_sextetsOfBytes B hB

/-- Witness for C6 at a concrete byte sequence exercising all three
padding cases. -/
theorem c6_base64url_roundtrip_witness :
    base64URLToBuffer (bufferToBase64URL [0, 255, 7, 62, 63]) =
      [0, 255, 7, 62, 63] ∧
    base64URLToBuffer (bufferToBase64URL [251]) = [251] :=
  ⟨c6_base64url_roundtrip [0, 255, 7, 62, 63] (by decide),
   c6_base64url_roundtrip [251] (by decide)⟩

end SecurePasskey
